import Mathlib

/-!
Verification of the flowforge geometry-to-graph pipeline.

This file gives a shallow embedding of the deterministic core of the
repository — `flowforge/geometry/raster_detector.py` (the stages of
`detect_geometry` that run after OpenCV has produced contours) and
`flowforge/graph/flowgraph.py` (`infer_orientation`, `build_flowgraph`,
`to_json`) — and proves properties of the embedded code.

Modelling conventions, used throughout:

* Machine floats never carry rounding-relevant information in this code:
  every float is either an exact half of an integer (bbox centers), an exact
  integer, or is only ever compared against a small rational constant.  We
  therefore keep all quantities integral:
  - centers are stored doubled (`center2 b = (x1+x2, y1+y2)`); the source
    only compares centers with centers and center differences with center
    differences, and all those comparisons are invariant under doubling;
  - confidences are stored scaled by 100 (so `0.75` becomes `75`); the
    source only assigns literal confidences and compares them with each
    other;
  - a float comparison against a rational constant `p/q` is replaced by the
    exactly equivalent integer cross-multiplied comparison (for example
    `overlap <= 0.15 * m` becomes `20 * overlap ≤ 3 * m`); where the claim
    itself speaks about the rational quantity (IoU), the rational-valued
    function is also defined and an equivalence lemma connects the two.
* OpenCV calls (`imread`, `findContours`, `contourArea`, `arcLength`,
  `approxPolyDP`, `boundingRect`, `minAreaRect`) are measurements of the
  image; each contour is abstracted as the record of the measured values the
  subsequent pure logic consumes.  `area`, `peri` and `angle` are modelled at
  integer resolution and the circularity test `4*pi*area/peri^2 > 0.7` is
  abstracted as a boolean measurement, since no claim depends on fractional
  measured values.
* Python `dict`s are insertion-ordered association lists with unique keys;
  `dset`/`dmod`/`dget` implement insertion-order preserving update/lookup.
* Python exceptions are modelled with `Except Unit`; the catch-all
  <code>except Exception</code> of `detect_geometry` is the `Except.error`
  branch of `detect_geometry` below.
-/

namespace Flowforge

instance {ε α : Type} [DecidableEq ε] [DecidableEq α] : DecidableEq (Except ε α) :=
  fun a b =>
    match a, b with
    | .ok x, .ok y =>
      if h : x = y then isTrue (by rw [h]) else isFalse (fun c => h (by injection c))
    | .error x, .error y =>
      if h : x = y then isTrue (by rw [h]) else isFalse (fun c => h (by injection c))
    | .ok _, .error _ => isFalse (fun c => by injection c)
    | .error _, .ok _ => isFalse (fun c => by injection c)

/-- Axis-aligned bounding box `(x1, y1, x2, y2)` in integer pixel
coordinates, the `bbox` tuple of `ShapePrimitive`. -/
structure BBox where
  x1 : Int
  y1 : Int
  x2 : Int
  y2 : Int
deriving DecidableEq

/-- `primitives.ShapePrimitive`.  `confidence` is stored scaled by 100
(the source stores a float in `[0,1]` that is only ever assigned from
literals and compared with other confidences). -/
structure ShapePrimitive where
  id : String
  bbox : BBox
  shape_type : String
  text : Option String
  confidence : Int
deriving DecidableEq

/-- `primitives.ConnectorPrimitive`.  `points` stores the polyline of
integer points the detector produces; `confidence` scaled by 100. -/
structure ConnectorPrimitive where
  id : String
  from_id : String
  to_id : String
  label : Option String
  points : List (Int × Int)
  confidence : Int
deriving DecidableEq

/-- The metadata dict `detect_geometry` attaches to its output:
`{"source": basename, "detector": name, "image_size": {"width": w, "height": h}}`. -/
structure GeoMetadata where
  source : String
  detector : String
  width : Int
  height : Int
deriving DecidableEq

/-- `primitives.GeometryOutput`. -/
structure GeometryOutput where
  shapes : List ShapePrimitive
  connectors : List ConnectorPrimitive
  metadata : GeoMetadata
deriving DecidableEq

/-- `flowgraph.FlowNode`. -/
structure FlowNode where
  id : String
  shape : String
  text : String
  out : Option String
  out_yes : Option String
  out_no : Option String
deriving DecidableEq

/-- `flowgraph.FlowGraph`.  `nodes` is a Python dict, modelled as an
insertion-ordered association list with unique keys. -/
structure FlowGraph where
  nodes : List (String × FlowNode)
  start_node : Option String
  orientation : String
deriving DecidableEq

/-- Python `d.get(k)` on an insertion-ordered dict: the value at the first
(unique) matching key. -/
def dget {α : Type} (d : List (String × α)) (k : String) : Option α :=
  (d.find? (fun p => p.1 = k)).map (·.2)

/-- Python `d[k] = v`: replace the value at `k` in place if the key is
present, otherwise append the new key at the end (dicts preserve insertion
order). -/
def dset {α : Type} : List (String × α) → String → α → List (String × α)
  | [], k, v => [(k, v)]
  | p :: rest, k, v => if p.1 = k then (k, v) :: rest else p :: dset rest k v

/-- In-place mutation of the value stored at key `k` (such as
`nodes[s.id].out = tid`); a no-op when the key is absent. -/
def dmod {α : Type} : List (String × α) → String → (α → α) → List (String × α)
  | [], _, _ => []
  | p :: rest, k, f => if p.1 = k then (k, f p.2) :: rest else p :: dmod rest k f

/-- Keys of a dict, in insertion order. -/
def dkeys {α : Type} (d : List (String × α)) : List String :=
  d.map (·.1)

/-- Python string truthiness fallback `a or b` (the empty string is falsy). -/
def pyOrStr (a b : String) : String :=
  if a = "" then b else a

/-- Twice the center of a bbox.  The source's `_center` returns
`(0.5*(x1+x2), 0.5*(y1+y2))` as floats (exact halves of integers); centers
are only ever compared with centers and center differences with center
differences, so the doubled integral value preserves every comparison
exactly. -/
def center2 (b : BBox) : Int × Int :=
  (b.x1 + b.x2, b.y1 + b.y2)

/-- `flowgraph._overlap_1d`: length of the overlap of two intervals. -/
def overlap_1d (a1 a2 b1 b2 : Int) : Int :=
  max 0 (min a2 b2 - max a1 b1)

/-- Running minimum-distance candidate update used by all the
nearest-neighbor loops: keep `best` unless the new distance is strictly
smaller. -/
def updBest (best : Option (Int × String)) (dist : Int) (tid : String) :
    Option (Int × String) :=
  match best with
  | none => some (dist, tid)
  | some (d, i) => if dist < d then some (dist, tid) else some (d, i)

/-- The `best_down` accumulator of `infer_orientation`: minimal positive
center-y difference to another shape (distances doubled, see `center2`). -/
def bestDownD (s : ShapePrimitive) (shapes : List ShapePrimitive) :
    Option (Int × String) :=
  shapes.foldl (fun acc t =>
    if t.id = s.id then acc
    else if (center2 s.bbox).2 < (center2 t.bbox).2 then
      updBest acc ((center2 t.bbox).2 - (center2 s.bbox).2) t.id
    else acc) none

/-- The `best_right` accumulator of `infer_orientation`. -/
def bestRightD (s : ShapePrimitive) (shapes : List ShapePrimitive) :
    Option (Int × String) :=
  shapes.foldl (fun acc t =>
    if t.id = s.id then acc
    else if (center2 s.bbox).1 < (center2 t.bbox).1 then
      updBest acc ((center2 t.bbox).1 - (center2 s.bbox).1) t.id
    else acc) none

/-- `flowgraph.infer_orientation`: with fewer than two shapes the result is
`"top-down"`; otherwise every shape votes `down` if any other shape has a
strictly larger center y and `right` if any other shape has a strictly
larger center x, and `down_votes >= right_votes` picks `"top-down"`. -/
def infer_orientation (g : GeometryOutput) : String :=
  if g.shapes.length < 2 then "top-down"
  else
    let dv := (g.shapes.filter (fun s => (bestDownD s g.shapes).isSome)).length
    let rv := (g.shapes.filter (fun s => (bestRightD s g.shapes).isSome)).length
    if rv ≤ dv then "top-down" else "left-right"

/-- The forward-neighbor search of `build_flowgraph` (the loop assigning
`out`): nearest shape strictly ahead on the orientation axis whose
perpendicular projection overlaps by more than 15% of the smaller span.
`overlap <= 0.15 * min(spanS, spanT)` is the exactly equivalent integer
comparison `20 * overlap ≤ 3 * min spanS spanT`. -/
def bestForward (o : String) (s : ShapePrimitive)
    (shapes : List ShapePrimitive) : Option (Int × String) :=
  shapes.foldl (fun best t =>
    if t.id = s.id then best
    else if o = "top-down" then
      if (center2 t.bbox).2 ≤ (center2 s.bbox).2 then best
      else if 20 * overlap_1d s.bbox.x1 s.bbox.x2 t.bbox.x1 t.bbox.x2 ≤
          3 * min (s.bbox.x2 - s.bbox.x1) (t.bbox.x2 - t.bbox.x1) then best
      else updBest best ((center2 t.bbox).2 - (center2 s.bbox).2) t.id
    else
      if (center2 t.bbox).1 ≤ (center2 s.bbox).1 then best
      else if 20 * overlap_1d s.bbox.y1 s.bbox.y2 t.bbox.y1 t.bbox.y2 ≤
          3 * min (s.bbox.y2 - s.bbox.y1) (t.bbox.y2 - t.bbox.y1) then best
      else updBest best ((center2 t.bbox).1 - (center2 s.bbox).1) t.id) none

/-- The decision-branch search of `build_flowgraph`: candidates gated by
overlap on the perpendicular axis are split by center into a `left_best`
(up, in left-right orientation) and `right_best` (down) slot, keeping the
nearest on each side.  Returns `(left_best, right_best)`. -/
def branchBests (o : String) (s : ShapePrimitive)
    (shapes : List ShapePrimitive) :
    Option (Int × String) × Option (Int × String) :=
  shapes.foldl (fun lr t =>
    if t.id = s.id then lr
    else if o = "top-down" then
      if 20 * overlap_1d s.bbox.y1 s.bbox.y2 t.bbox.y1 t.bbox.y2 ≤
          3 * min (s.bbox.y2 - s.bbox.y1) (t.bbox.y2 - t.bbox.y1) then lr
      else if (center2 t.bbox).1 < (center2 s.bbox).1 then
        (updBest lr.1 ((center2 s.bbox).1 - (center2 t.bbox).1) t.id, lr.2)
      else
        (lr.1, updBest lr.2 ((center2 t.bbox).1 - (center2 s.bbox).1) t.id)
    else
      if 20 * overlap_1d s.bbox.x1 s.bbox.x2 t.bbox.x1 t.bbox.x2 ≤
          3 * min (s.bbox.x2 - s.bbox.x1) (t.bbox.x2 - t.bbox.x1) then lr
      else if (center2 t.bbox).2 < (center2 s.bbox).2 then
        (updBest lr.1 ((center2 s.bbox).2 - (center2 t.bbox).2) t.id, lr.2)
      else
        (lr.1, updBest lr.2 ((center2 t.bbox).2 - (center2 s.bbox).2) t.id))
    (none, none)

/-- The `yes_no_hints` argument: `{shape_id: {"left": label?, "right": label?}}`
with optional string labels, a dict of dicts of `Optional[str]`. -/
abbrev YesNoHints := List (String × List (String × Option String))

/-- Node initialization of `build_flowgraph`:
`FlowNode(id=s.id, shape=s.shape_type or "unknown", text=s.text or "")`. -/
def initNode (s : ShapePrimitive) : FlowNode :=
  ⟨s.id, pyOrStr s.shape_type "unknown", pyOrStr (s.text.getD "") "", none, none, none⟩

/-- One iteration of the decision-branch loop of `build_flowgraph` for shape
`s`: skip non-`decision` shapes, assign `out_no` from `left_best` and
`out_yes` from `right_best`, then honor a swapping yes/no hint when both
sides have candidates.  `if yes_no_hints and s.id in yes_no_hints` makes an
absent or empty hint dict a no-op. -/
def decisionStep (o : String) (hints : Option YesNoHints)
    (shapes : List ShapePrimitive) (nodes : List (String × FlowNode))
    (s : ShapePrimitive) : List (String × FlowNode) :=
  if pyOrStr s.shape_type "" ≠ "decision" then nodes
  else
    let lr := branchBests o s shapes
    let nodes1 := match lr.1 with
      | some (_, tid) => dmod nodes s.id (fun n => { n with out_no := some tid })
      | none => nodes
    let nodes2 := match lr.2 with
      | some (_, tid) => dmod nodes1 s.id (fun n => { n with out_yes := some tid })
      | none => nodes1
    match hints with
    | none => nodes2
    | some hd =>
      if hd.isEmpty then nodes2
      else
        match dget hd s.id with
        | none => nodes2
        | some h =>
          if dget h "left" = some (some "YES") ∧ lr.1.isSome ∧ lr.2.isSome then
            dmod nodes2 s.id (fun n =>
              { n with out_yes := lr.1.map (·.2), out_no := lr.2.map (·.2) })
          else if dget h "right" = some (some "NO") ∧ lr.1.isSome ∧ lr.2.isSome then
            dmod nodes2 s.id (fun n =>
              { n with out_yes := lr.1.map (·.2), out_no := lr.2.map (·.2) })
          else nodes2

/-- The orientation chosen by `build_flowgraph`:
`forced_orientation if forced_orientation else infer_orientation(geometry)`
(the empty string is falsy, so it does not force anything). -/
def resolveOrientation (g : GeometryOutput) (fo : Option String) : String :=
  match fo with
  | some f => pyOrStr f (infer_orientation g)
  | none => infer_orientation g

/-- The fully populated nodes dict of `build_flowgraph`: initialization,
then the `out` loop, then the decision-branch loop. -/
def buildNodes (o : String) (hints : Option YesNoHints)
    (shapes : List ShapePrimitive) : List (String × FlowNode) :=
  let nodes0 := shapes.foldl (fun d s => dset d s.id (initNode s)) []
  let nodes1 := shapes.foldl (fun d s =>
    match bestForward o s shapes with
    | some (_, tid) => dmod d s.id (fun n => { n with out := some tid })
    | none => d) nodes0
  shapes.foldl (fun d s => decisionStep o hints shapes d s) nodes1

/-- The in-degree pass of `build_flowgraph`: starting from
`{nid: 0 for nid in nodes}`, every node's `out`, `out_yes`, `out_no` (in
that order) increments its target's counter when the pointer is truthy (not
`None` and not the empty string) and the target is a known key.
`incTarget` is one increment; `countIncoming` is the whole pass. -/
def incTarget (inc : List (String × Nat)) (t? : Option String) :
    List (String × Nat) :=
  match t? with
  | none => inc
  | some t =>
    if t = "" then inc
    else if (dget inc t).isSome then dmod inc t (· + 1) else inc

def countIncoming (nodes : List (String × FlowNode)) : List (String × Nat) :=
  nodes.foldl (fun inc p =>
    [p.2.out, p.2.out_yes, p.2.out_no].foldl incTarget inc)
    (nodes.map (fun p => (p.1, 0)))

/-- `flowgraph.build_flowgraph`.  The start node is the first key whose
in-degree counter is zero.  When no such key exists and the shape list is
non-empty, the source falls back to
`min(shapes, key=...)[0].id if hasattr(min(shapes, key=...), 'id') else shapes[0].id`
(line 183): `hasattr(..., 'id')` is always true for a `ShapePrimitive`, so
the subscript `min(...)[0]` is evaluated and raises `TypeError`
(`ShapePrimitive` is not subscriptable); that raise is the `Except.error`
branch. -/
def build_flowgraph (g : GeometryOutput) (yes_no_hints : Option YesNoHints)
    (forced_orientation : Option String) : Except Unit FlowGraph :=
  let o := resolveOrientation g forced_orientation
  let nodes := buildNodes o yes_no_hints g.shapes
  let inc := countIncoming nodes
  match inc.find? (fun p => p.2 == 0) with
  | some p => .ok ⟨nodes, some p.1, o⟩
  | none =>
    if g.shapes.isEmpty then .ok ⟨nodes, none, o⟩
    else .error ()

/-- JSON values as produced by `to_json`: the serialized object only
contains strings, nulls and string-keyed objects. -/
inductive Json where
  | null : Json
  | str : String → Json
  | obj : List (String × Json) → Json

/-- Serialization of an optional string: `None` becomes JSON `null`. -/
def jsonOfOpt : Option String → Json
  | none => .null
  | some s => .str s

/-- The per-node object of `to_json`:
`{"id": .., "shape": .., "text": .., "out": .., "out_yes": .., "out_no": ..}`. -/
def jsonOfNode (n : FlowNode) : Json :=
  .obj [("id", .str n.id), ("shape", .str n.shape), ("text", .str n.text),
    ("out", jsonOfOpt n.out), ("out_yes", jsonOfOpt n.out_yes),
    ("out_no", jsonOfOpt n.out_no)]

/-- `flowgraph.to_json`, modelled as the structured JSON value the source
builds and then prints with `json.dumps` (`json.dumps`/`json.loads` is the
identity round trip on such string/null-only objects, so the structured
value is the faithful interchange object). -/
def to_json (f : FlowGraph) : Json :=
  .obj [("orientation", .str f.orientation),
    ("start_node", jsonOfOpt f.start_node),
    ("nodes", .obj (f.nodes.map (fun p => (p.1, jsonOfNode p.2))))]

/-- Parsing of an optional string field back from JSON. -/
def optOfJson : Json → Option (Option String)
  | .null => some none
  | .str s => some (some s)
  | .obj _ => none

/-- Modelled from the spec: the repository serializes a `FlowGraph` with
`to_json` but contains no parser for that format; the spec's round-trip
property (`parse(serialize(FlowGraph)) == FlowGraph`, §8) and the canonical
schema (§6: orientation, start_node, and a node map exposing
id/shape/text/out/out_yes/out_no) define the parser: read each field of the
canonical object back into a `FlowNode`. -/
def nodeOfJson : Json → Option FlowNode
  | .obj [("id", .str i), ("shape", .str sh), ("text", .str t),
      ("out", o), ("out_yes", oy), ("out_no", ono)] => do
    let o' ← optOfJson o
    let oy' ← optOfJson oy
    let ono' ← optOfJson ono
    some ⟨i, sh, t, o', oy', ono'⟩
  | _ => none

/-- Modelled from the spec (see `nodeOfJson`): parse the node map of the
canonical serialization. -/
def nodesOfJson : List (String × Json) → Option (List (String × FlowNode))
  | [] => some []
  | p :: ps => do
    let n ← nodeOfJson p.2
    let rest ← nodesOfJson ps
    some ((p.1, n) :: rest)

/-- Modelled from the spec (see `nodeOfJson`): parse the canonical
structured serialization back into a `FlowGraph`. -/
def parse_flowgraph : Json → Option FlowGraph
  | .obj [("orientation", .str o), ("start_node", sn), ("nodes", .obj ns)] => do
    let s ← optOfJson sn
    let nds ← nodesOfJson ns
    some ⟨nds, s, o⟩
  | _ => none

/-- A Python value as it may appear in the calibration `params` dict. -/
inductive PyVal where
  | int : Int → PyVal
  | str : String → PyVal
  | none : PyVal
deriving DecidableEq

/-- The calibration `params` dict. -/
abbrev Params := List (String × PyVal)

/-- Python truthiness of a calibration value: `0`, the empty string and
`None` are falsy. -/
def pyTruthy : PyVal → Bool
  | .int n => n != 0
  | .str s => s != ""
  | .none => false

/-- Python `a or b` on calibration values. -/
def pyOrVal (a b : PyVal) : PyVal :=
  if pyTruthy a then a else b

/-- Decimal digit value of a character, if it is a digit. -/
def digitVal (c : Char) : Option Nat :=
  if 48 ≤ c.toNat ∧ c.toNat ≤ 57 then some (c.toNat - 48) else Option.none

/-- Accumulating decimal parse of a digit string. -/
def parseDigitsAux : List Char → Nat → Option Nat
  | [], acc => some acc
  | c :: cs, acc =>
    match digitVal c with
    | some d => parseDigitsAux cs (acc * 10 + d)
    | Option.none => Option.none

/-- Parse a non-empty all-digit string. -/
def parseDigits : List Char → Option Nat
  | [] => Option.none
  | l => parseDigitsAux l 0

/-- Python `int(s)` on a string: optional surrounding spaces, optional
sign, then decimal digits; anything else raises `ValueError` (`none` here).
(Python also strips other whitespace kinds and allows digit-group
underscores; those refinements never matter below.) -/
def pyIntOfStr (s : String) : Option Int :=
  let l := (s.data.dropWhile (· = ' ')).reverse.dropWhile (· = ' ') |>.reverse
  match l with
  | '-' :: rest => (parseDigits rest).map (fun n => -(n : Int))
  | '+' :: rest => (parseDigits rest).map (fun n => (n : Int))
  | rest => (parseDigits rest).map (fun n => (n : Int))

/-- Python `int(v)`: the identity on ints, decimal parsing on strings
(`ValueError` on a non-numeric string), `TypeError` on `None`. -/
def pyInt : PyVal → Except Unit Int
  | .int n => .ok n
  | .str s =>
    match pyIntOfStr s with
    | some n => .ok n
    | Option.none => .error ()
  | .none => .error ()

/-- Python `params.get(key, default)`. -/
def pyGet (p : Params) (k : String) (dflt : PyVal) : PyVal :=
  (dget p k).getD dflt

/-- One contour, abstracted as the record of measured values
`detect_geometry` consumes: `cv2.contourArea` (`area`), `cv2.arcLength`
(`peri`), `len(approx)` after `approxPolyDP` (`approxLen`),
`cv2.boundingRect(approx)` (`x`, `y`, `w`, `h` with `w, h ≥ 0`), the
`cv2.minAreaRect` rotation angle in degrees (`angle`), and the boolean
outcome of the circularity test `4*pi*area/peri**2 > 0.7` (`circHigh`).
`area`, `peri` and `angle` are kept at integer resolution; no claim below
depends on fractional measured values. -/
structure Contour where
  area : Int
  peri : Int
  approxLen : Nat
  x : Int
  y : Int
  w : Int
  h : Int
  angle : Int
  circHigh : Bool
deriving DecidableEq

/-- A candidate rectangle `(x1, y1, x2, y2, shape_type, confidence)` as
carried through the merge/NMS stages (confidence scaled by 100). -/
structure RectC where
  x1 : Int
  y1 : Int
  x2 : Int
  y2 : Int
  ty : String
  conf : Int
deriving DecidableEq

/-- `100*lo10/10 <= w/h <= hi10/10` with `ar = w / float(h) if h > 0 else 1.0`:
the aspect-ratio band check, cross-multiplied to stay integral (all the
bands used have one decimal digit, so `lo10`/`hi10` are the bounds times
10; the comparison is exactly the float one). -/
def ar_in (w h lo10 hi10 : Int) : Bool :=
  if 0 < h then decide (lo10 * h ≤ 10 * w ∧ 10 * w ≤ hi10 * h)
  else decide (lo10 ≤ 10 ∧ 10 ≤ hi10)

/-- Classification of a 4-vertex or many-vertex contour
(`raster_detector.py` lines 113-141): the `minAreaRect` angle is folded
into `(-45, 90]` and its magnitude buckets rectangles into `process`
(axis-aligned, confidence 0.75), `decision` (mid-band, 0.72), or the
aspect-ratio fallback `process` (0.60); non-quadrilaterals become
`terminator` (0.68) on high circularity with at least 6 vertices; anything
else keeps the initial `("unknown", 0.50)`. -/
def classifyContour (c : Contour) : String × Int :=
  if c.approxLen = 4 then
    let angle := if c.angle < -45 then c.angle + 90 else c.angle
    if |angle| ≤ 20 then ("process", 75)
    else if |angle| ≤ 70 then ("decision", 72)
    else if ar_in c.w c.h 5 45 then ("process", 60)
    else ("unknown", 50)
  else if c.circHigh ∧ 6 ≤ c.approxLen then ("terminator", 68)
  else ("unknown", 50)

/-- The type-specific aspect-ratio plausibility gate
(`raster_detector.py` lines 144-150): `process` needs `0.6 ≤ ar ≤ 5.0`,
`decision` needs `0.5 ≤ ar ≤ 1.6`, `terminator` needs `0.7 ≤ ar ≤ 5.0`. -/
def aspectOK (ty : String) (w h : Int) : Bool :=
  if ty = "process" then ar_in w h 6 50
  else if ty = "decision" then ar_in w h 5 16
  else if ty = "terminator" then ar_in w h 7 50
  else true

/-- `area < min_area` with
`min_area = max(max(150, 0.00015*W*H), 0.25*(mw*mh))`
(`raster_detector.py` lines 76-98), as the exactly equivalent integral
disjunction `area < max(a,b,c) ↔ area < a ∨ area < b ∨ area < c` with the
rational thresholds cross-multiplied. -/
def areaBelowMin (area mw mh W H : Int) : Bool :=
  decide (area < 150 ∨ 20000 * area < 3 * (W * H) ∨ 4 * area < mw * mh)

/-- `MIN_W = int(0.6 * mw)` (and `MIN_H` likewise): for `mw ≥ 0` the float
truncation equals `⌊3*mw/5⌋` exactly. -/
def minDim (m : Int) : Int :=
  (3 * m).fdiv 5

/-- One iteration of the contour loop (`raster_detector.py` lines 96-152):
skip small-area contours, degenerate perimeters, and bounding boxes below
the calibrated minimum size; classify; apply the aspect gate; append the
surviving candidate `(x, y, x+w, y+h, type, conf)`. -/
def contourStep (mw mh W H : Int) (rects : List RectC) (c : Contour) :
    List RectC :=
  if areaBelowMin c.area mw mh W H then rects
  else if c.peri ≤ 0 then rects
  else if c.w < minDim mw ∨ c.h < minDim mh then rects
  else
    let tc := classifyContour c
    if aspectOK tc.1 c.w c.h then
      rects ++ [⟨c.x, c.y, c.x + c.w, c.y + c.h, tc.1, tc.2⟩]
    else rects

/-- `_is_close(a, b, pad=5)`: padded bounding boxes touch or overlap. -/
def is_close (a b : RectC) : Bool :=
  !(decide (a.x2 < b.x1 - 5 ∨ b.x2 < a.x1 - 5 ∨ a.y2 < b.y1 - 5 ∨ b.y2 < a.y1 - 5))

/-- Merging of rect `r` into the already-merged box `m`: the bounding box
becomes the union and the higher confidence brings its type along
(`if cf > m[5]`). -/
def mergeOne (m r : RectC) : RectC :=
  let m1 : RectC :=
    ⟨min m.x1 r.x1, min m.y1 r.y1, max m.x2 r.x2, max m.y2 r.y2, m.ty, m.conf⟩
  if m.conf < r.conf then { m1 with ty := r.ty, conf := r.conf } else m1

/-- One iteration of the proximity-merge loop: fold `r` into the first
already-merged box it is close to, else append it. -/
def mergeStep : List RectC → RectC → List RectC
  | [], r => [r]
  | m :: ms, r => if is_close r m then mergeOne m r :: ms else m :: mergeStep ms r

/-- The proximity-merge stage (`raster_detector.py` lines 169-187). -/
def mergeAll (rects : List RectC) : List RectC :=
  rects.foldl mergeStep []

/-- Signed bbox area `(x2-x1)*(y2-y1)` of a candidate, the sort key
component and the nested-suppression measure. -/
def rarea (r : RectC) : Int :=
  (r.x2 - r.x1) * (r.y2 - r.y1)

/-- Intersection area of two candidate boxes (`iou`, lines 190-199). -/
def inter (a b : RectC) : Int :=
  max 0 (min a.x2 b.x2 - max a.x1 b.x1) * max 0 (min a.y2 b.y2 - max a.y1 b.y1)

/-- `area_a = max(0, ...)` of the `iou` helper. -/
def areaNN (r : RectC) : Int :=
  max 0 (rarea r)

/-- The `iou` helper (lines 190-203) as the rational it computes:
`inter / (area_a + area_b - inter + 1e-6)`. -/
def iou (a b : RectC) : ℚ :=
  (inter a b : ℚ) / ((areaNN a : ℚ) + (areaNN b : ℚ) - (inter a b : ℚ) + 1 / 1000000)

/-- `iou(a,b) < 0.6` in exact integer form: with `I = inter`,
`S = area_a + area_b - I ≥ I ≥ 0`, the float test `I/(S+1e-6) < 0.6` holds
iff `5*I < 3*S + 3e-6` iff (integrality) `5*I ≤ 3*S`; see `iouLt6_iff`. -/
def iouLt6 (a b : RectC) : Bool :=
  decide (5 * inter a b ≤ 3 * (areaNN a + areaNN b - inter a b))

/-- `iou(a,b) > 0.8` in exact integer form: `I/(S+1e-6) > 0.8` iff
`5*I > 4*S + 4e-6` iff (integrality) `4*S < 5*I`; see `iouGt8_iff`. -/
def iouGt8 (a b : RectC) : Bool :=
  decide (4 * (areaNN a + areaNN b - inter a b) < 5 * inter a b)

/-- The NMS sort key order: descending lexicographically by
`(confidence, area)`.  `a` may come before `b` iff its key is `≥`. -/
def confAreaGE (a b : RectC) : Prop :=
  b.conf < a.conf ∨ (a.conf = b.conf ∧ rarea b ≤ rarea a)

instance : DecidableRel confAreaGE := fun a b => by
  unfold confAreaGE; infer_instance

instance : IsTotal RectC confAreaGE :=
  ⟨fun a b => by unfold confAreaGE; omega⟩

instance : IsTrans RectC confAreaGE :=
  ⟨fun a b c => by unfold confAreaGE; omega⟩

/-- `sorted(rects, key=lambda r: (r[5], area), reverse=True)`: Python's
sort is stable, and a stable descending sort is the unique permutation that
is sorted for `confAreaGE` and keeps the original order of key-equal
entries; `List.insertionSort confAreaGE` computes exactly that list. -/
def sortRects (rects : List RectC) : List RectC :=
  rects.insertionSort confAreaGE

/-- The greedy NMS pick loop (lines 210-213): append a candidate iff its
IoU against every already-picked candidate is `< 0.6`. -/
def nmsPick : List RectC → List RectC → List RectC
  | picked, [] => picked
  | picked, r :: rest =>
    if picked.all (fun p => iouLt6 r p) then nmsPick (picked ++ [r]) rest
    else nmsPick picked rest

/-- The keep-test of the nested-suppression loop (lines 217-230) for the
entry of `picked` at position `i` holding `r`: drop `r` iff some *other*
entry (`r is p` compares object identity, i.e. position) has strictly
larger clamped area, IoU with `r` above 0.8, and `r`'s clamped area is
under 20% of its own (`ra/pa < 0.2` iff `5*ra < pa`). -/
def nestedKeep (pickedE : List (Nat × RectC)) (i : Nat) (r : RectC) : Bool :=
  pickedE.all (fun q =>
    if q.1 = i then true
    else
      let ra := max 1 (rarea r)
      let pa := max 1 (rarea q.2)
      if pa ≤ ra then true
      else !(iouGt8 r q.2 && decide (5 * ra < pa)))

/-- The nested-suppression stage (lines 216-231). -/
def nestedStage (picked : List RectC) : List RectC :=
  (picked.enum.filter (fun q => nestedKeep picked.enum q.1 q.2)).map (·.2)

/-- Sort, greedy NMS, and nested suppression combined: the `picked` list
the materialization loop receives. -/
def nmsNested (rects : List RectC) : List RectC :=
  nestedStage (nmsPick [] (sortRects rects))

/-- The dense id scheme of the materialization loop: `f"s{idx}"`. -/
def sIdOf (i : Nat) : String :=
  "s" ++ toString i

/-- `allowed_types = {"process", "decision", "terminator"}`. -/
def allowedType (ty : String) : Bool :=
  ty = "process" || ty = "decision" || ty = "terminator"

/-- The materialization loop (lines 234-245): enumerate `picked` and emit a
`ShapePrimitive` with id `f"s{idx}"` for each allowed-typed entry (the
index keeps counting across skipped entries). -/
def materialize (picked : List RectC) : List ShapePrimitive :=
  picked.enum.filterMap (fun q =>
    if allowedType q.2.ty then
      some ⟨sIdOf q.1, ⟨q.2.x1, q.2.y1, q.2.x2, q.2.y2⟩, q.2.ty, Option.none, q.2.conf⟩
    else Option.none)

/-- Signed bbox area of a materialized shape, the cap-stage sort key. -/
def sarea (s : ShapePrimitive) : Int :=
  (s.bbox.x2 - s.bbox.x1) * (s.bbox.y2 - s.bbox.y1)

/-- The cap-stage sort key order: descending by area. -/
def sareaGE (a b : ShapePrimitive) : Prop :=
  sarea b ≤ sarea a

instance : DecidableRel sareaGE := fun a b => by
  unfold sareaGE; infer_instance

instance : IsTotal ShapePrimitive sareaGE :=
  ⟨fun a b => by unfold sareaGE; omega⟩

instance : IsTrans ShapePrimitive sareaGE :=
  ⟨fun a b c => by unfold sareaGE; omega⟩

/-- The estimated-node-count cap (lines 248-255): with a truthy params dict
and a non-empty shape list, `est = int(params.get("estimated_node_count") or 0)`
(which may raise on a malformed value), and when `est > 0` and more than
`3*est` shapes survive, only the `3*est` largest-area shapes are kept
(stable descending sort by area, ids unchanged). -/
def capStage (params : Option Params) (shapes : List ShapePrimitive) :
    Except Unit (List ShapePrimitive) :=
  match params with
  | Option.none => .ok shapes
  | some p =>
    if p.isEmpty ∨ shapes.isEmpty then .ok shapes
    else do
      let est ← pyInt (pyOrVal (pyGet p "estimated_node_count" .none) (.int 0))
      if 0 < est ∧ 3 * est < (shapes.length : Int) then
        .ok ((shapes.insertionSort sareaGE).take (3 * est).toNat)
      else .ok shapes

/-- Truncation of the halved doubled center back to Python `int(...)`
(toward zero), used for connector polyline points. -/
def halfTrunc (c : Int) : Int :=
  c.tdiv 2

/-- The directional neighbor search of the connector stage (lines 268-294):
for shape `s`, the nearest shape strictly below with more than 20%
x-overlap and the nearest strictly to the right with more than 20%
y-overlap (`overlap > 0.2*min` is `5*overlap > min` exactly). -/
def bestDownRight (s : ShapePrimitive) (items : List (String × ShapePrimitive)) :
    Option (Int × String) × Option (Int × String) :=
  items.foldl (fun dr t =>
    if t.1 = s.id then dr
    else
      let dr1 :=
        if (center2 s.bbox).2 < (center2 t.2.bbox).2 ∧
            min (s.bbox.x2 - s.bbox.x1) (t.2.bbox.x2 - t.2.bbox.x1) <
              5 * overlap_1d s.bbox.x1 s.bbox.x2 t.2.bbox.x1 t.2.bbox.x2 then
          (updBest dr.1 ((center2 t.2.bbox).2 - (center2 s.bbox).2) t.1, dr.2)
        else dr
      if (center2 s.bbox).1 < (center2 t.2.bbox).1 ∧
          min (s.bbox.y2 - s.bbox.y1) (t.2.bbox.y2 - t.2.bbox.y1) <
            5 * overlap_1d s.bbox.y1 s.bbox.y2 t.2.bbox.y1 t.2.bbox.y2 then
        (dr1.1, updBest dr1.2 ((center2 t.2.bbox).1 - (center2 s.bbox).1) t.1)
      else dr1) (Option.none, Option.none)

/-- A connector record as emitted by the connector stage; `dir` is `"v"`
or `"h"`. -/
def mkConn (dir sid tid : String) (s t : ShapePrimitive) : ConnectorPrimitive :=
  ⟨"c_" ++ sid ++ "_" ++ tid ++ "_" ++ dir, sid, tid, Option.none,
    [(halfTrunc (center2 s.bbox).1, halfTrunc (center2 s.bbox).2),
     (halfTrunc (center2 t.bbox).1, halfTrunc (center2 t.bbox).2)], 40⟩

/-- The connector-proposal stage (lines 257-324): `id_to_shape` collapses
shapes by id into a dict, and each entry contributes a vertical connector
to its best downward neighbor and a horizontal one to its best rightward
neighbor (confidence 0.4). -/
def connectorsStage (shapes : List ShapePrimitive) : List ConnectorPrimitive :=
  let items := shapes.foldl (fun d s => dset d s.id s) []
  items.foldl (fun conns p =>
    let dr := bestDownRight p.2 items
    let conns1 := match dr.1 with
      | some (_, tid) =>
        match dget items tid with
        | some t => conns ++ [mkConn "v" p.1 tid p.2 t]
        | Option.none => conns
      | Option.none => conns
    match dr.2 with
    | some (_, tid) =>
      match dget items tid with
      | some t => conns1 ++ [mkConn "h" p.1 tid p.2 t]
      | Option.none => conns1
    | Option.none => conns1) []

/-- The image as the OpenCV path sees it: the dimensions of `img.shape`
and the extracted contour list.  `none` stands for any failure up to and
including `cv2.imread` returning `None`. -/
structure ImageData where
  iw : Int
  ih : Int
  contours : List Contour
deriving DecidableEq

/-- The outcome of the two image reads `detect_geometry` attempts: the
Pillow dimension probe (its own `try`/`except` makes failure a `none`) and
the OpenCV read. -/
structure DetectInput where
  pil : Option (Int × Int)
  cv : Option ImageData
deriving DecidableEq

/-- The parse of one median-dimension hint
(`int(params.get(key, 40)) if params else 40`, lines 79-80): an empty
params dict is falsy; a malformed value raises out of the guarded block. -/
def medianHint (params : Option Params) (key : String) : Except Unit Int :=
  match params with
  | Option.none => .ok 40
  | some p => if p.isEmpty then .ok 40 else pyInt (pyGet p key (.int 40))

/-- The body of the big `try` of `detect_geometry` (lines 47-326), from the
OpenCV read to the connector stage: any raise inside it (`error`) falls
through to the degraded-output handler.  Returns the resolved image
dimensions, the final shapes and the proposed connectors. -/
def detectBody (inp : DetectInput) (params : Option Params) :
    Except Unit (Int × Int × List ShapePrimitive × List ConnectorPrimitive) := do
  match inp.cv with
  | Option.none => .error ()
  | some img =>
    let wh := match inp.pil with
      | some wh => wh
      | Option.none => (img.iw, img.ih)
    let mw0 ← medianHint params "median_shape_width"
    let mh0 ← medianHint params "median_shape_height"
    let mw := max mw0 40
    let mh := max mh0 40
    let rects := img.contours.foldl (contourStep mw mh wh.1 wh.2) []
    let picked := nmsNested (mergeAll rects)
    let shapes ← capStage params (materialize picked)
    .ok (wh.1, wh.2, shapes, connectorsStage shapes)

/-- `os.path.basename` for forward-slash paths: the suffix after the last
slash. -/
def basename (p : String) : String :=
  ⟨(p.data.reverse.takeWhile (fun c => c ≠ '/')).reverse⟩

/-- The `width`/`height` the except handler of `detect_geometry` sees: the
Pillow probe sets them first; otherwise, once `cv2.imread` has succeeded,
lines 55-57 overwrite them from `img.shape` *before* anything later in the
body can raise, and that mutation persists into the handler; only when both
probes failed does the handler's own `width, height = 0, 0` apply
(a raise at or before `cv2.imread` happens before lines 55-57 run). -/
def fallbackDims (inp : DetectInput) : Int × Int :=
  match inp.pil with
  | some wh => wh
  | Option.none =>
    match inp.cv with
    | some img => (img.iw, img.ih)
    | Option.none => (0, 0)

/-- `raster_detector.detect_geometry`: on success the detector is
`"opencv-calibrated"`; any exception in the body degrades (lines 328-341)
to a single `"unknown"` shape with bbox `(0, 0, width, height)` — the
`width`/`height` recorded so far, see `fallbackDims` — confidence 0.1 and
no connectors, with detector `"placeholder"`. -/
def detect_geometry (image_path : String) (inp : DetectInput)
    (params : Option Params) : GeometryOutput :=
  match detectBody inp params with
  | .ok (W, H, shapes, conns) =>
    ⟨shapes, conns, ⟨basename image_path, "opencv-calibrated", W, H⟩⟩
  | .error _ =>
    let wh := fallbackDims inp
    ⟨[⟨"s0", ⟨0, 0, wh.1, wh.2⟩, "unknown", Option.none, 10⟩], [],
      ⟨basename image_path, "placeholder", wh.1, wh.2⟩⟩

/-- Existence of a strictly-lower neighbor (spec-level restatement of the
`best_down is not None` vote of `infer_orientation`, as a plain existence
test). -/
def hasDownNb (s : ShapePrimitive) (shapes : List ShapePrimitive) : Bool :=
  shapes.any (fun t => decide (t.id ≠ s.id) &&
    decide ((center2 s.bbox).2 < (center2 t.bbox).2))

/-- Existence of a strictly-rightward neighbor (spec-level restatement of
the `best_right is not None` vote). -/
def hasRightNb (s : ShapePrimitive) (shapes : List ShapePrimitive) : Bool :=
  shapes.any (fun t => decide (t.id ≠ s.id) &&
    decide ((center2 s.bbox).1 < (center2 t.bbox).1))

/-- Spec-level orientation vote *without* overlap gating: each shape votes
down/right by bare existence of a forward neighbor; `down >= right` picks
top-down.  `infer_orientation_eq_spec` proves this is what the source
computes. -/
def infer_orientation_spec (g : GeometryOutput) : String :=
  if g.shapes.length < 2 then "top-down"
  else if g.shapes.countP (fun s => hasRightNb s g.shapes) ≤
      g.shapes.countP (fun s => hasDownNb s g.shapes) then "top-down"
  else "left-right"

/-- Modelled from the spec (claim C4 wording): a downward neighbor gated by
x-overlap of more than 15% of the smaller span. -/
def hasDownNbGated (s : ShapePrimitive) (shapes : List ShapePrimitive) : Bool :=
  shapes.any (fun t => decide (t.id ≠ s.id) &&
    decide ((center2 s.bbox).2 < (center2 t.bbox).2) &&
    decide (3 * min (s.bbox.x2 - s.bbox.x1) (t.bbox.x2 - t.bbox.x1) <
      20 * overlap_1d s.bbox.x1 s.bbox.x2 t.bbox.x1 t.bbox.x2))

/-- Modelled from the spec (claim C4 wording): a rightward neighbor gated
by y-overlap of more than 15% of the smaller span. -/
def hasRightNbGated (s : ShapePrimitive) (shapes : List ShapePrimitive) : Bool :=
  shapes.any (fun t => decide (t.id ≠ s.id) &&
    decide ((center2 s.bbox).1 < (center2 t.bbox).1) &&
    decide (3 * min (s.bbox.y2 - s.bbox.y1) (t.bbox.y2 - t.bbox.y1) <
      20 * overlap_1d s.bbox.y1 s.bbox.y2 t.bbox.y1 t.bbox.y2))

/-- Modelled from the spec (claim C4 wording, §4.3 of the spec): the
orientation vote with perpendicular-overlap gating of the neighbor
relations, majority vote, ties to top-down. -/
def infer_orientation_gated (g : GeometryOutput) : String :=
  if g.shapes.length < 2 then "top-down"
  else if g.shapes.countP (fun s => hasRightNbGated s g.shapes) ≤
      g.shapes.countP (fun s => hasDownNbGated s g.shapes) then "top-down"
  else "left-right"

/-- The pointer occurrences of a node that the in-degree pass counts: its
`out`, `out_yes`, `out_no` values that are truthy (non-`None`, non-empty)
and name a known key. -/
def ptrTargets (ks : List String) (n : FlowNode) : List String :=
  ([n.out, n.out_yes, n.out_no].filterMap id).filter
    (fun t => !(t == "") && ks.contains t)

/-- Spec-level per-key in-degree recount: how often `k` occurs as a counted
pointer target across all nodes.  `countIncoming_eq_indeg` proves the
source's increment pass computes exactly this for every key. -/
def indeg (nodes : List (String × FlowNode)) (k : String) : Nat :=
  (nodes.map (fun p => (ptrTargets (dkeys nodes) p.2).count k)).sum

/-- How often `k` occurs among the counted targets of a raw pointer list
(`cntT ks [n.out, n.out_yes, n.out_no] k` is `(ptrTargets ks n).count k`). -/
def cntT (ks : List String) (ts : List (Option String)) (k : String) : Nat :=
  ((ts.filterMap id).filter (fun t => !(t == "") && ks.contains t)).count k

/-- Statement abbreviation: an entry of a nodes dict carries its key as its
id, and none of its three pointers equals its own key. -/
def noSelfPtr (p : String × FlowNode) : Prop :=
  p.2.id = p.1 ∧ p.2.out ≠ some p.1 ∧ p.2.out_yes ≠ some p.1 ∧
    p.2.out_no ≠ some p.1

/-- Statement abbreviation for the decision-branch invariant: an entry's
branch pointers are populated only if its shape tag is `"decision"`, and
its shape tag is the one derived from a shape carrying its key as id. -/
def branchOnlyDecision (shapes : List ShapePrimitive) (p : String × FlowNode) : Prop :=
  ((p.2.out_yes ≠ Option.none ∨ p.2.out_no ≠ Option.none) → p.2.shape = "decision") ∧
  ∃ s ∈ shapes, s.id = p.1 ∧ p.2.shape = pyOrStr s.shape_type "unknown"

/-- Statement abbreviation: a candidate's type and confidence always come
from the same classification branch, so an allowed (materializable) type
travels with confidence at least 0.60 and an `"unknown"` type with exactly
0.50 — the fact that makes allowed candidates sort ahead of unknown ones. -/
def typeConfOK (r : RectC) : Prop :=
  (allowedType r.ty = true ∧ 60 ≤ r.conf) ∨
  (allowedType r.ty = false ∧ r.conf = 50)

/-- Concrete geometry: two mutually isolated process shapes, the first one
lower on the page (doubled center y 200) and the second one topmost
(doubled center y 20); no overlap on either axis, so no edges arise. -/
def twoIsolated : GeometryOutput :=
  ⟨[⟨"s0", ⟨0, 90, 20, 110⟩, "process", Option.none, 75⟩,
    ⟨"s1", ⟨100, 0, 120, 20⟩, "process", Option.none, 75⟩], [], ⟨"", "", 0, 0⟩⟩

/-- Concrete geometry: a decision shape with a process shape straight below
it (x-overlap satisfied) and another process shape to its right
(y-overlap satisfied). -/
def decisionBelowRight : GeometryOutput :=
  ⟨[⟨"s0", ⟨0, 0, 100, 100⟩, "decision", Option.none, 72⟩,
    ⟨"s1", ⟨0, 200, 100, 300⟩, "process", Option.none, 75⟩,
    ⟨"s2", ⟨200, 0, 300, 100⟩, "process", Option.none, 75⟩], [], ⟨"", "", 0, 0⟩⟩

/-- Concrete geometry: two decision shapes side by side at the same height
with full y-overlap; under forced top-down orientation each becomes the
other's branch target, so every node has in-degree one. -/
def sideBySideDecisions : GeometryOutput :=
  ⟨[⟨"s0", ⟨0, 0, 100, 100⟩, "decision", Option.none, 72⟩,
    ⟨"s1", ⟨200, 0, 300, 100⟩, "decision", Option.none, 72⟩], [], ⟨"", "", 0, 0⟩⟩

/-- Concrete geometry: a diagonal pair with no x-overlap but some
y-overlap; ungated voting ties (one down vote, one right vote) while gated
voting sees only a rightward neighbor. -/
def diagonalPair : GeometryOutput :=
  ⟨[⟨"s0", ⟨0, 0, 10, 10⟩, "process", Option.none, 75⟩,
    ⟨"s1", ⟨100, 5, 110, 15⟩, "process", Option.none, 75⟩], [], ⟨"", "", 0, 0⟩⟩

/-- Concrete contour: a single clean axis-aligned 100x100 square
(classified `process` with confidence 0.75). -/
def squareContour : Contour :=
  ⟨10000, 400, 4, 10, 10, 100, 100, 0, false⟩

/-- Concrete detector input: a 500x500 image with the single square
contour. -/
def oneSquareInput : DetectInput :=
  ⟨some (500, 500), some ⟨500, 500, [squareContour]⟩⟩

/-- Concrete detector input: four well-separated squares; the first is a
clean `process` (confidence 0.75, 100x100), the remaining three are
fallback `process` detections (confidence 0.60) of sides 130, 120, 110, so
NMS orders them `s0` (by confidence), then `s1`, `s2`, `s3` by descending
area. -/
def fourSquaresInput : DetectInput :=
  ⟨some (5000, 500), some ⟨5000, 500,
    [⟨10000, 400, 4, 0, 0, 100, 100, 0, false⟩,
     ⟨16900, 520, 4, 1000, 0, 130, 130, 80, false⟩,
     ⟨14400, 480, 4, 2000, 0, 120, 120, 80, false⟩,
     ⟨12100, 440, 4, 3000, 0, 110, 110, 80, false⟩]⟩⟩

/-! ## Theorems -/

theorem optOfJson_jsonOfOpt (o : Option String) : optOfJson (jsonOfOpt o) = some o := by
  cases o <;> rfl

theorem nodeOfJson_jsonOfNode (n : FlowNode) : nodeOfJson (jsonOfNode n) = some n := by
  cases n with
  | mk i sh t o oy ono => cases o <;> cases oy <;> cases ono <;> rfl

theorem nodesOfJson_map (l : List (String × FlowNode)) :
    nodesOfJson (l.map (fun p => (p.1, jsonOfNode p.2))) = some l := by
  induction l with
  | nil => rfl
  | cons p ps ih =>
    simp [nodesOfJson, nodeOfJson_jsonOfNode, ih]

/-- C9: parsing the structured serialization produced by `to_json` yields a
`FlowGraph` structurally equal to the original — the round trip is
lossless on `nodes` (with all of id, shape, text, out, out_yes, out_no),
`start_node` and `orientation`. -/
theorem C9_to_json_round_trip (f : FlowGraph) :
    parse_flowgraph (to_json f) = some f := by
  cases f with
  | mk ns sn o =>
    cases sn <;>
      simp [to_json, parse_flowgraph, jsonOfOpt, optOfJson, nodesOfJson_map]

/-- The exact shape of `detect_geometry`'s output whenever the guarded body
raises (the except handler, raster_detector.py lines 328-341): one
`"unknown"` shape over the recorded frame `fallbackDims`, confidence 0.1,
no connectors, detector name `"placeholder"`. Shared by the failure-policy
and calibration theorems. -/
theorem detect_geometry_error_form (path : String) (inp : DetectInput)
    (params : Option Params) (h : detectBody inp params = .error ()) :
    detect_geometry path inp params =
      ⟨[⟨"s0", ⟨0, 0, (fallbackDims inp).1, (fallbackDims inp).2⟩,
          "unknown", Option.none, 10⟩], [],
        ⟨basename path, "placeholder",
          (fallbackDims inp).1, (fallbackDims inp).2⟩⟩ := by
  unfold detect_geometry
  rw [h]

/-- C1: the failure policy of `detect_geometry` — an unreadable image makes
the guarded body raise, and any raise of the guarded body (unreadable image
or internal exception) produces exactly one `"unknown"` shape whose bbox
spans the whole recorded frame (`fallbackDims`: the Pillow-probed
dimensions; otherwise the OpenCV dimensions recorded by lines 55-57 before
the raise; `(0,0)` only when both probes failed), with confidence 0.1
(stored as 10/100) and no connectors; no input raises out of
`detect_geometry` itself (it is a total function of its inputs). -/
theorem C1_failure_yields_unknown_fallback (path : String) (inp : DetectInput)
    (params : Option Params) :
    (inp.cv = Option.none → detectBody inp params = .error ()) ∧
    (detectBody inp params = .error () →
      detect_geometry path inp params =
        ⟨[⟨"s0", ⟨0, 0, (fallbackDims inp).1, (fallbackDims inp).2⟩,
            "unknown", Option.none, 10⟩], [],
          ⟨basename path, "placeholder",
            (fallbackDims inp).1, (fallbackDims inp).2⟩⟩) := by
  constructor
  · intro h
    unfold detectBody
    rw [h]
  · intro h
    exact detect_geometry_error_form path inp params h

/-- Witness for C1 at a concrete input whose Pillow probe failed but whose
OpenCV read succeeded on a 640x480 image before a malformed calibration
hint raised: the fallback spans the OpenCV-recorded frame. -/
theorem C1_witness :
    detect_geometry "flow.png" ⟨Option.none, some ⟨640, 480, []⟩⟩
        (some [("median_shape_width", PyVal.str "wide")]) =
      ⟨[⟨"s0", ⟨0, 0, 640, 480⟩, "unknown", Option.none, 10⟩], [],
        ⟨"flow.png", "placeholder", 640, 480⟩⟩ := by
  have h :=
    (C1_failure_yields_unknown_fallback "flow.png"
        ⟨Option.none, some ⟨640, 480, []⟩⟩
        (some [("median_shape_width", PyVal.str "wide")])).2 (by decide)
  simpa [basename, fallbackDims] using h

theorem updBest_isSome (b : Option (Int × String)) (d : Int) (t : String) :
    (updBest b d t).isSome := by
  unfold updBest
  cases b with
  | none => rfl
  | some p =>
    cases p with
    | mk pd pt =>
      dsimp only
      split <;> rfl

theorem bestDownD_isSome (s : ShapePrimitive) (l : List ShapePrimitive) :
    (bestDownD s l).isSome = hasDownNb s l := by
  unfold bestDownD hasDownNb
  suffices h : ∀ (l : List ShapePrimitive) (acc : Option (Int × String)),
      (l.foldl (fun acc t =>
        if t.id = s.id then acc
        else if (center2 s.bbox).2 < (center2 t.bbox).2 then
          updBest acc ((center2 t.bbox).2 - (center2 s.bbox).2) t.id
        else acc) acc).isSome =
      (acc.isSome || l.any (fun t => decide (t.id ≠ s.id) &&
        decide ((center2 s.bbox).2 < (center2 t.bbox).2))) by
    simpa using h l none
  intro l
  induction l with
  | nil => simp
  | cons t ts ih =>
    intro acc
    by_cases h1 : t.id = s.id
    · simp [h1, ih]
    · by_cases h2 : (center2 s.bbox).2 < (center2 t.bbox).2
      · simp [h1, h2, ih, updBest_isSome]
      · simp [h1, h2, ih]

theorem bestRightD_isSome (s : ShapePrimitive) (l : List ShapePrimitive) :
    (bestRightD s l).isSome = hasRightNb s l := by
  unfold bestRightD hasRightNb
  suffices h : ∀ (l : List ShapePrimitive) (acc : Option (Int × String)),
      (l.foldl (fun acc t =>
        if t.id = s.id then acc
        else if (center2 s.bbox).1 < (center2 t.bbox).1 then
          updBest acc ((center2 t.bbox).1 - (center2 s.bbox).1) t.id
        else acc) acc).isSome =
      (acc.isSome || l.any (fun t => decide (t.id ≠ s.id) &&
        decide ((center2 s.bbox).1 < (center2 t.bbox).1))) by
    simpa using h l none
  intro l
  induction l with
  | nil => simp
  | cons t ts ih =>
    intro acc
    by_cases h1 : t.id = s.id
    · simp [h1, ih]
    · by_cases h2 : (center2 s.bbox).1 < (center2 t.bbox).1
      · simp [h1, h2, ih, updBest_isSome]
      · simp [h1, h2, ih]

theorem infer_orientation_eq_spec (g : GeometryOutput) :
    infer_orientation g = infer_orientation_spec g := by
  unfold infer_orientation infer_orientation_spec
  have hd : (fun s => (bestDownD s g.shapes).isSome) =
      (fun s => hasDownNb s g.shapes) :=
    funext (fun s => bestDownD_isSome s g.shapes)
  have hr : (fun s => (bestRightD s g.shapes).isSome) =
      (fun s => hasRightNb s g.shapes) :=
    funext (fun s => bestRightD_isSome s g.shapes)
  rw [hd, hr, List.countP_eq_length_filter, List.countP_eq_length_filter]

/-- C4 (amended): `infer_orientation` counts, for each shape, the bare
existence of a strictly-downward and a strictly-rightward neighbor with
*no* perpendicular-overlap gating, takes the majority with ties resolving
to top-down (`infer_orientation_spec` states exactly this policy), and a
*non-empty* forced orientation string passed to `build_flowgraph` overrides
the vote entirely (the empty string is falsy in the source and does not
override). -/
theorem C4_orientation_vote_ungated :
    (∀ g, infer_orientation g = infer_orientation_spec g) ∧
    (∀ (g : GeometryOutput) (h : Option YesNoHints) (o : String)
      (fg : FlowGraph), o ≠ "" →
      build_flowgraph g h (some o) = .ok fg → fg.orientation = o) := by
  constructor
  · exact infer_orientation_eq_spec
  · intro g h o fg ho hb
    have horient : resolveOrientation g (some o) = o := by
      unfold resolveOrientation pyOrStr
      simp [ho]
    simp only [build_flowgraph, horient] at hb
    rcases hfind : (countIncoming (buildNodes o h g.shapes)).find? (fun p => p.2 == 0) with
      _ | p
    · rw [hfind] at hb
      by_cases hemp : g.shapes.isEmpty
      · simp only [hemp, if_true] at hb
        cases hb
        rfl
      · simp only [hemp, if_false] at hb
        cases hb
    · rw [hfind] at hb
      cases hb
      rfl

/-- Witness for C4 at concrete inputs: the vote equivalence evaluated on
the diagonal pair, and the forced-orientation override evaluated on an
empty geometry. -/
theorem C4_witness :
    infer_orientation diagonalPair = infer_orientation_spec diagonalPair ∧
    (⟨[], Option.none, "left-right"⟩ : FlowGraph).orientation = "left-right" :=
  ⟨C4_orientation_vote_ungated.1 diagonalPair,
    C4_orientation_vote_ungated.2 ⟨[], [], ⟨"", "", 0, 0⟩⟩ Option.none "left-right"
      ⟨[], Option.none, "left-right"⟩ (by decide) (by decide)⟩

/-- Counterexample for C4 as stated: on `diagonalPair` the source's
ungated vote returns `"top-down"` (tie: one down vote, one right vote),
while the overlap-gated vote the claim describes sees no downward neighbor
(no x-overlap at all) and exactly one rightward neighbor, so it returns
`"left-right"`. -/
theorem C4_counterexample :
    infer_orientation diagonalPair = "top-down" ∧
    infer_orientation_gated diagonalPair = "left-right" := by
  constructor <;> decide

theorem except_ok_bind {α β : Type} (x : α) (f : α → Except Unit β) :
    (Except.ok x : Except Unit α) >>= f = f x := rfl

theorem except_error_bind {α β : Type} (f : α → Except Unit β) :
    (Except.error () : Except Unit α) >>= f = Except.error () := rfl

theorem capStage_single_median (v : PyVal) (shapes : List ShapePrimitive) :
    capStage (some [("median_shape_width", v)]) shapes = .ok shapes := by
  by_cases h : shapes.isEmpty <;>
    simp [capStage, pyGet, dget, pyOrVal, pyTruthy, pyInt, h, except_ok_bind]

theorem detectBody_median_clamp (inp : DetectInput) (n : Int) :
    detectBody inp (some [("median_shape_width", PyVal.int n)]) =
    detectBody inp (some [("median_shape_width", PyVal.int (max n 40))]) := by
  cases hc : inp.cv with
  | none => simp [detectBody, hc]
  | some img =>
    simp only [detectBody, hc, medianHint, pyGet, dget, List.find?, List.isEmpty]
    simp only [pyInt, List.isEmpty_cons, Bool.false_eq_true, if_false,
      Option.getD_some, Option.map_some]
    simp [except_ok_bind]
    rw [capStage_single_median, capStage_single_median]

theorem detectBody_median_malformed (inp : DetectInput) (s : String)
    (h : pyIntOfStr s = Option.none) :
    detectBody inp (some [("median_shape_width", PyVal.str s)]) = .error () := by
  cases hc : inp.cv with
  | none => simp [detectBody, hc]
  | some img =>
    simp only [detectBody, hc, medianHint, pyGet, dget, List.find?, List.isEmpty]
    simp [pyInt, h, except_error_bind]

/-- C5 (amended): a *numeric* median-size hint is clamped per-field (the
result is the same as if the field were already clamped up to the built-in
minimum 40); a non-positive `estimated_node_count` is ignored — the cap
stage (lines 247-255) returns the shapes unchanged whenever the parsed
estimate is `≤ 0`; but a *malformed* (non-numeric) hint value is not
ignored: `int(...)` raises inside the guarded block, so the whole
detection degrades to the single-`unknown` fallback output over the
recorded frame `fallbackDims` instead of performing normal detection with
that one field defaulted. -/
theorem C5_calibration_handling :
    (∀ (path : String) (inp : DetectInput) (n : Int),
      detect_geometry path inp (some [("median_shape_width", PyVal.int n)]) =
      detect_geometry path inp (some [("median_shape_width", PyVal.int (max n 40))])) ∧
    (∀ (path : String) (inp : DetectInput) (s : String),
      pyIntOfStr s = Option.none →
      detect_geometry path inp (some [("median_shape_width", PyVal.str s)]) =
        ⟨[⟨"s0", ⟨0, 0, (fallbackDims inp).1, (fallbackDims inp).2⟩,
            "unknown", Option.none, 10⟩], [],
          ⟨basename path, "placeholder",
            (fallbackDims inp).1, (fallbackDims inp).2⟩⟩) ∧
    (∀ (p : Params) (shapes : List ShapePrimitive) (est : Int),
      pyInt (pyOrVal (pyGet p "estimated_node_count" PyVal.none) (PyVal.int 0)) =
        .ok est →
      est ≤ 0 →
      capStage (some p) shapes = .ok shapes) := by
  refine ⟨?_, ?_, ?_⟩
  · intro path inp n
    unfold detect_geometry
    rw [detectBody_median_clamp]
  · intro path inp s h
    exact detect_geometry_error_form path inp _
      (detectBody_median_malformed inp s h)
  · intro p shapes est h hle
    unfold capStage
    dsimp only
    by_cases he : p.isEmpty ∨ shapes.isEmpty
    · rw [if_pos he]
    · rw [if_neg he]
      rw [h, except_ok_bind]
      exact if_neg (fun hc => absurd hc.1 (not_lt.mpr hle))

/-- Witness for C5 at concrete inputs: the clamp equation evaluated for the
hint value 7 on the one-square image, the malformed-hint fallback
evaluated on an unreadable image, and the ignored non-positive estimate
evaluated at `estimated_node_count = -3` on a one-shape list. -/
theorem C5_witness :
    detect_geometry "img.png" oneSquareInput
        (some [("median_shape_width", PyVal.int 7)]) =
      detect_geometry "img.png" oneSquareInput
        (some [("median_shape_width", PyVal.int 40)]) ∧
    detect_geometry "img.png" ⟨Option.none, Option.none⟩
        (some [("median_shape_width", PyVal.str "wide")]) =
      ⟨[⟨"s0", ⟨0, 0, 0, 0⟩, "unknown", Option.none, 10⟩], [],
        ⟨"img.png", "placeholder", 0, 0⟩⟩ ∧
    capStage (some [("estimated_node_count", PyVal.int (-3))])
        [⟨"s0", ⟨0, 0, 50, 50⟩, "process", Option.none, 75⟩] =
      .ok [⟨"s0", ⟨0, 0, 50, 50⟩, "process", Option.none, 75⟩] := by
  refine ⟨?_, ?_, ?_⟩
  · have h := C5_calibration_handling.1 "img.png" oneSquareInput 7
    simpa using h
  · have h := C5_calibration_handling.2.1 "img.png" ⟨Option.none, Option.none⟩
      "wide" (by decide)
    simpa [basename, fallbackDims] using h
  · exact C5_calibration_handling.2.2
      [("estimated_node_count", PyVal.int (-3))]
      [⟨"s0", ⟨0, 0, 50, 50⟩, "process", Option.none, 75⟩] (-3)
      (by decide) (by decide)

/-- Counterexample for C5 as stated: with the single malformed field
`median_shape_width = "wide"` on a perfectly readable one-square image,
`detect_geometry` does *not* perform normal detection with the bad field
ignored — it returns the degraded placeholder output, while the same image
without the hint detects a `process` shape. -/
theorem C5_counterexample :
    (detect_geometry "img.png" oneSquareInput
        (some [("median_shape_width", PyVal.str "wide")])).metadata.detector =
      "placeholder" ∧
    (detect_geometry "img.png" oneSquareInput
        (some [("median_shape_width", PyVal.str "wide")])).shapes.map
        (fun s => s.shape_type) = ["unknown"] ∧
    (detect_geometry "img.png" oneSquareInput Option.none).metadata.detector =
      "opencv-calibrated" ∧
    (detect_geometry "img.png" oneSquareInput Option.none).shapes.map
        (fun s => s.shape_type) = ["process"] := by
  refine ⟨?_, ?_, ?_, ?_⟩ <;> decide

theorem dkeys_dmod {α : Type} (d : List (String × α)) (k : String) (f : α → α) :
    dkeys (dmod d k f) = dkeys d := by
  induction d with
  | nil => rfl
  | cons p rest ih =>
    by_cases h : p.1 = k
    · simp [dmod, h, dkeys]
    · simp only [dmod, h, if_false, dkeys, List.map_cons]
      simpa [dkeys] using ih

theorem dget_isSome_iff {α : Type} (d : List (String × α)) (k : String) :
    (dget d k).isSome ↔ k ∈ dkeys d := by
  unfold dget dkeys
  have hmap : (Option.map (fun x => x.2) (d.find? (fun p => decide (p.1 = k)))).isSome =
      (d.find? (fun p => decide (p.1 = k))).isSome := by
    cases d.find? (fun p => decide (p.1 = k)) <;> rfl
  rw [hmap, List.find?_isSome]
  constructor
  · rintro ⟨x, hx, he⟩
    simp only [decide_eq_true_eq] at he
    exact he ▸ List.mem_map_of_mem (·.1) hx
  · intro hk
    rcases List.mem_map.1 hk with ⟨x, hx, he⟩
    exact ⟨x, hx, by simp [he]⟩

theorem dmod_eq_map {α : Type} (d : List (String × α)) (k : String) (f : α → α)
    (h : (dkeys d).Nodup) :
    dmod d k f = d.map (fun p => if p.1 = k then (p.1, f p.2) else p) := by
  induction d with
  | nil => rfl
  | cons p rest ih =>
    simp only [dkeys, List.map_cons, List.nodup_cons] at h
    by_cases hp : p.1 = k
    · have hrest : ∀ q ∈ rest, (if q.1 = k then (q.1, f q.2) else q) = q := by
        intro q hq
        have hqk : q.1 ≠ k := by
          intro e
          apply h.1
          have hmm : q.1 ∈ rest.map (fun x => x.1) :=
            List.mem_map_of_mem (fun x => x.1) hq
          rw [e, ← hp] at hmm
          exact hmm
        simp [hqk]
      simp only [dmod, hp, if_true, List.map_cons]
      rw [List.map_congr_left hrest, List.map_id']
    · simp only [dmod, hp, if_false, List.map_cons]
      rw [ih (by simpa [dkeys] using h.2)]

theorem dkeys_map_fst {α β : Type} (d : List (String × α))
    (F : String × α → String × β) (hF : ∀ p, (F p).1 = p.1) :
    dkeys (d.map F) = dkeys d := by
  simp only [dkeys, List.map_map]
  exact List.map_congr_left (fun p _ => hF p)

theorem cntT_cons_none (ks : List String) (ts : List (Option String)) (k : String) :
    cntT ks (none :: ts) k = cntT ks ts k := rfl

theorem cntT_cons_some (ks : List String) (ts : List (Option String)) (t k : String) :
    cntT ks (some t :: ts) k =
      cntT ks ts k + (if t ≠ "" ∧ t ∈ ks ∧ t = k then 1 else 0) := by
  unfold cntT
  rw [show (some t :: ts).filterMap id = t :: ts.filterMap id from rfl,
    List.filter_cons]
  by_cases ht : t = ""
  · simp [ht]
  · by_cases hm : t ∈ ks
    · have hpred : (!(t == "") && ks.contains t) = true := by
        simp [ht, List.elem_iff, hm]
      rw [if_pos hpred, List.count_cons]
      by_cases hk : t = k
      · subst hk
        simp [ht, hm]
      · simp [hk, fun h : t ≠ "" ∧ t ∈ ks ∧ t = k => hk h.2.2]
    · have hpred : (!(t == "") && ks.contains t) = false := by
        simp [List.elem_iff]
        exact fun _ => hm
      rw [if_neg (by rw [hpred]; exact Bool.false_ne_true)]
      have hcond : ¬(t ≠ "" ∧ t ∈ ks ∧ t = k) := fun h => hm h.2.1
      simp [hcond]

theorem foldl_incTarget_eq (ts : List (Option String)) :
    ∀ (inc : List (String × Nat)), (dkeys inc).Nodup →
    ts.foldl incTarget inc =
      inc.map (fun q => (q.1, q.2 + cntT (dkeys inc) ts q.1)) := by
  induction ts with
  | nil =>
    intro inc _
    simp [cntT]
  | cons t? ts ih =>
    intro inc h
    rw [List.foldl_cons]
    rcases t? with _ | t
    · rw [show incTarget inc none = inc from rfl, ih inc h]
      simp [cntT_cons_none]
    · by_cases ht : t = ""
      · rw [show incTarget inc (some t) = inc from by simp [incTarget, ht],
          ih inc h]
        apply List.map_congr_left
        intro p _
        rw [cntT_cons_some]
        simp [ht]
      · by_cases hmem : (dget inc t).isSome
        · have hm : t ∈ dkeys inc := (dget_isSome_iff _ _).1 hmem
          rw [show incTarget inc (some t) = dmod inc t (· + 1) from by
            simp [incTarget, ht, hmem]]
          rw [dmod_eq_map _ _ _ h]
          have hkeys : dkeys (inc.map
              (fun p => if p.1 = t then (p.1, p.2 + 1) else p)) = dkeys inc := by
            apply dkeys_map_fst
            intro p
            by_cases hp : p.1 = t <;> simp [hp]
          rw [ih _ (by rw [hkeys]; exact h), hkeys, List.map_map]
          apply List.map_congr_left
          intro p _
          simp only [Function.comp]
          by_cases hp : p.1 = t
          · rw [if_pos hp, cntT_cons_some]
            have hcond : t ≠ "" ∧ t ∈ dkeys inc ∧ t = p.1 := ⟨ht, hm, hp.symm⟩
            rw [if_pos hcond]
            simp only [Prod.mk.injEq]
            exact ⟨by simp, by omega⟩
          · rw [if_neg hp, cntT_cons_some]
            have hcond : ¬(t ≠ "" ∧ t ∈ dkeys inc ∧ t = p.1) :=
              fun h => hp h.2.2.symm
            rw [if_neg hcond]
            simp
        · have hm : t ∉ dkeys inc := fun hmm => hmem ((dget_isSome_iff _ _).2 hmm)
          rw [show incTarget inc (some t) = inc from by simp [incTarget, ht, hmem],
            ih inc h]
          apply List.map_congr_left
          intro p _
          rw [cntT_cons_some]
          have : ¬(t ≠ "" ∧ t ∈ dkeys inc ∧ t = p.1) := by
            intro ⟨_, hmm, _⟩
            exact hm hmm
          simp [this]

theorem countIncoming_eq_indeg (nodes : List (String × FlowNode))
    (h : (dkeys nodes).Nodup) :
    countIncoming nodes = nodes.map (fun p => (p.1, indeg nodes p.1)) := by
  unfold countIncoming
  suffices hgen : ∀ (l : List (String × FlowNode)) (d : List (String × Nat)),
      (dkeys d).Nodup →
      l.foldl (fun inc p => [p.2.out, p.2.out_yes, p.2.out_no].foldl incTarget inc) d =
        d.map (fun q => (q.1, q.2 +
          (l.map (fun p => cntT (dkeys d) [p.2.out, p.2.out_yes, p.2.out_no] q.1)).sum)) by
    have hd : dkeys (nodes.map (fun p => (p.1, (0 : Nat)))) = dkeys nodes := by
      apply dkeys_map_fst
      intro p
      rfl
    rw [hgen nodes _ (by rw [hd]; exact h), List.map_map]
    apply List.map_congr_left
    intro p _
    simp only [Function.comp]
    rw [hd, Nat.zero_add]
    rfl
  intro l
  induction l with
  | nil =>
    intro d _
    simp
  | cons p l ih =>
    intro d hd
    rw [List.foldl_cons, foldl_incTarget_eq _ d hd]
    have hkeys : dkeys (d.map (fun q =>
        (q.1, q.2 + cntT (dkeys d) [p.2.out, p.2.out_yes, p.2.out_no] q.1))) = dkeys d := by
      apply dkeys_map_fst
      intro q
      rfl
    rw [ih _ (by rw [hkeys]; exact hd), hkeys, List.map_map]
    apply List.map_congr_left
    intro q _
    simp only [Function.comp, List.map_cons, List.sum_cons]
    congr 1
    omega

theorem dkeys_dset {α : Type} (d : List (String × α)) (k : String) (v : α) :
    dkeys (dset d k v) = if k ∈ dkeys d then dkeys d else dkeys d ++ [k] := by
  induction d with
  | nil => simp [dset, dkeys]
  | cons p rest ih =>
    by_cases hp : p.1 = k
    · simp [dset, hp, dkeys]
    · rw [show dset (p :: rest) k v = p :: dset rest k v from by simp [dset, hp],
        show dkeys (p :: dset rest k v) = p.1 :: dkeys (dset rest k v) from rfl,
        ih,
        show dkeys (p :: rest) = p.1 :: dkeys rest from rfl]
      by_cases hm : k ∈ dkeys rest
      · rw [if_pos hm, if_pos (List.mem_cons_of_mem _ hm)]
      · rw [if_neg hm, if_neg (by
          rw [List.mem_cons]
          rintro (he | hmm)
          · exact hp he.symm
          · exact hm hmm)]
        rfl

theorem dkeys_dset_nodup {α : Type} (d : List (String × α)) (k : String) (v : α)
    (h : (dkeys d).Nodup) : (dkeys (dset d k v)).Nodup := by
  rw [dkeys_dset]
  by_cases hm : k ∈ dkeys d
  · simpa [hm] using h
  · simp only [hm, if_false]
    simp [List.nodup_append, h, hm]

theorem dkeys_decisionStep (o : String) (hints : Option YesNoHints)
    (shapes : List ShapePrimitive) (d : List (String × FlowNode))
    (s : ShapePrimitive) :
    dkeys (decisionStep o hints shapes d s) = dkeys d := by
  unfold decisionStep
  rcases hb : branchBests o s shapes with ⟨lb, rb⟩
  simp only [hb]
  repeat' split
  all_goals simp [dkeys_dmod]

theorem buildNodes_nodup (o : String) (hints : Option YesNoHints)
    (shapes : List ShapePrimitive) :
    (dkeys (buildNodes o hints shapes)).Nodup := by
  unfold buildNodes
  dsimp only
  have h0 : (dkeys (shapes.foldl (fun d s => dset d s.id (initNode s)) [])).Nodup := by
    refine List.foldlRecOn (motive := fun d => (dkeys d).Nodup) shapes _
      ([] : List (String × FlowNode)) (by simp [dkeys]) ?_
    intro d hd s _
    exact dkeys_dset_nodup d s.id (initNode s) hd
  have h1 : (dkeys (shapes.foldl (fun d s =>
      match bestForward o s shapes with
      | some (_, tid) => dmod d s.id (fun n => { n with out := some tid })
      | none => d) (shapes.foldl (fun d s => dset d s.id (initNode s)) []))).Nodup := by
    refine List.foldlRecOn (motive := fun d => (dkeys d).Nodup) shapes _ _ h0 ?_
    intro d hd s _
    cases hb : bestForward o s shapes with
    | none => exact hd
    | some q =>
      cases q with
      | mk dist tid => simpa [dkeys_dmod] using hd
  refine List.foldlRecOn (motive := fun d => (dkeys d).Nodup) shapes _ _ h1 ?_
  intro d hd s _
  rw [dkeys_decisionStep]
  exact hd

/-- C2 (amended): `build_flowgraph` picks as start node the *first* key in
node-insertion order whose in-degree (recounted per key by `indeg`) is
zero — so a unique zero-in-degree node is indeed the start, but with
several candidates the first in shape order wins, not the topmost; and when
*no* node has in-degree zero and the shape list is non-empty, the topmost
fallback expression of line 183 raises a `TypeError` (it subscripts a
`ShapePrimitive`), modelled as `Except.error`. -/
theorem C2_start_selection (g : GeometryOutput) (hints : Option YesNoHints)
    (fo : Option String) :
    build_flowgraph g hints fo =
      (match (buildNodes (resolveOrientation g fo) hints g.shapes).find?
          (fun p => indeg (buildNodes (resolveOrientation g fo) hints g.shapes) p.1 == 0) with
       | some p => Except.ok ⟨buildNodes (resolveOrientation g fo) hints g.shapes,
           some p.1, resolveOrientation g fo⟩
       | none =>
         if g.shapes.isEmpty then
           Except.ok ⟨buildNodes (resolveOrientation g fo) hints g.shapes,
             none, resolveOrientation g fo⟩
         else Except.error ()) := by
  simp only [build_flowgraph]
  rw [countIncoming_eq_indeg _ (buildNodes_nodup _ _ _), List.find?_map]
  rw [show ((fun p : String × Nat => p.2 == 0) ∘
      (fun p : String × FlowNode =>
        (p.1, indeg (buildNodes (resolveOrientation g fo) hints g.shapes) p.1))) =
      (fun p : String × FlowNode =>
        indeg (buildNodes (resolveOrientation g fo) hints g.shapes) p.1 == 0) from rfl]
  cases hf : (buildNodes (resolveOrientation g fo) hints g.shapes).find?
      (fun p => indeg (buildNodes (resolveOrientation g fo) hints g.shapes) p.1 == 0) with
  | none => simp [hf]
  | some p => simp [hf]

/-- Counterexample for C2 as stated, in both failing cases: on
`twoIsolated` (forced top-down) both nodes have in-degree zero and the
topmost shape is `s1`, but the source picks the first key `s0`; and on
`sideBySideDecisions` (forced top-down) no node has in-degree zero and the
source raises a `TypeError` out of the topmost-fallback expression instead
of selecting the topmost shape. -/
theorem C2_counterexample :
    (build_flowgraph twoIsolated Option.none (some "top-down")).toOption.map
        (fun f => f.start_node) = some (some "s0") ∧
    indeg (buildNodes "top-down" Option.none twoIsolated.shapes) "s0" = 0 ∧
    indeg (buildNodes "top-down" Option.none twoIsolated.shapes) "s1" = 0 ∧
    (center2 ⟨100, 0, 120, 20⟩).2 < (center2 ⟨0, 90, 20, 110⟩).2 ∧
    build_flowgraph sideBySideDecisions Option.none (some "top-down") =
      Except.error () := by
  refine ⟨?_, ?_, ?_, ?_, ?_⟩ <;> decide

theorem dset_forall {α : Type} {Q : String × α → Prop} {d : List (String × α)}
    {k : String} {v : α} (hd : ∀ q ∈ d, Q q) (hv : Q (k, v)) :
    ∀ q ∈ dset d k v, Q q := by
  induction d with
  | nil =>
    intro q hq
    simp [dset] at hq
    exact hq ▸ hv
  | cons p rest ih =>
    intro q hq
    by_cases hp : p.1 = k
    · simp only [dset, hp, if_true, List.mem_cons] at hq
      rcases hq with hq | hq
      · exact hq ▸ hv
      · exact hd q (List.mem_cons_of_mem p hq)
    · simp only [dset, hp, if_false, List.mem_cons] at hq
      rcases hq with hq | hq
      · exact hq ▸ hd p (List.mem_cons_self p rest)
      · exact ih (fun r hr => hd r (List.mem_cons_of_mem p hr)) q hq

theorem dmod_forall {α : Type} {Q : String × α → Prop} {d : List (String × α)}
    {k : String} {f : α → α} (hd : ∀ q ∈ d, Q q)
    (hf : ∀ v, Q (k, v) → Q (k, f v)) :
    ∀ q ∈ dmod d k f, Q q := by
  induction d with
  | nil =>
    intro q hq
    simp [dmod] at hq
  | cons p rest ih =>
    intro q hq
    by_cases hp : p.1 = k
    · simp only [dmod, hp, if_true, List.mem_cons] at hq
      rcases hq with hq | hq
      · have := hd p (List.mem_cons_self p rest)
        rw [show p = (p.1, p.2) from rfl, hp] at this
        exact hq ▸ hf p.2 this
      · exact hd q (List.mem_cons_of_mem p hq)
    · simp only [dmod, hp, if_false, List.mem_cons] at hq
      rcases hq with hq | hq
      · exact hq ▸ hd p (List.mem_cons_self p rest)
      · exact ih (fun r hr => hd r (List.mem_cons_of_mem p hr)) q hq

theorem updBest_eq_some (b : Option (Int × String)) (dist : Int) (tid : String)
    (d : Int) (t : String) (h : updBest b dist tid = some (d, t)) :
    t = tid ∨ b = some (d, t) := by
  cases b with
  | none =>
    simp only [updBest] at h
    injection h with h
    injection h with _ h2
    exact Or.inl h2.symm
  | some q =>
    cases q with
    | mk bd bt =>
      simp only [updBest] at h
      by_cases hlt : dist < bd
      · rw [if_pos hlt] at h
        injection h with h
        injection h with _ h2
        exact Or.inl h2.symm
      · rw [if_neg hlt] at h
        exact Or.inr h

theorem bestForward_ne (o : String) (s : ShapePrimitive)
    (shapes : List ShapePrimitive) :
    ∀ d t, bestForward o s shapes = some (d, t) → t ≠ s.id := by
  unfold bestForward
  refine List.foldlRecOn
    (motive := fun acc => ∀ d t, acc = some (d, t) → t ≠ s.id) shapes _ none
    (by intro d t h; cases h) ?_
  intro acc hacc x _ d t heq
  by_cases h1 : x.id = s.id
  · rw [if_pos h1] at heq
    exact hacc d t heq
  · rw [if_neg h1] at heq
    have hupd : ∀ dd, updBest acc dd x.id = some (d, t) → t ≠ s.id := by
      intro dd hu
      rcases updBest_eq_some acc dd x.id d t hu with he | he
      · exact he ▸ h1
      · exact hacc d t he
    by_cases h2 : o = "top-down"
    · rw [if_pos h2] at heq
      split at heq
      · exact hacc d t heq
      · split at heq
        · exact hacc d t heq
        · exact hupd _ heq
    · rw [if_neg h2] at heq
      split at heq
      · exact hacc d t heq
      · split at heq
        · exact hacc d t heq
        · exact hupd _ heq

theorem branchBests_ne (o : String) (s : ShapePrimitive)
    (shapes : List ShapePrimitive) :
    (∀ d t, (branchBests o s shapes).1 = some (d, t) → t ≠ s.id) ∧
    (∀ d t, (branchBests o s shapes).2 = some (d, t) → t ≠ s.id) := by
  unfold branchBests
  refine List.foldlRecOn
    (motive := fun lr : Option (Int × String) × Option (Int × String) =>
      (∀ (d : Int) (t : String), lr.1 = some (d, t) → t ≠ s.id) ∧
      (∀ (d : Int) (t : String), lr.2 = some (d, t) → t ≠ s.id))
    shapes _ (none, none) ?_ ?_
  · constructor
    · intro d t h
      simp at h
    · intro d t h
      simp at h
  intro lr hlr x _
  by_cases h1 : x.id = s.id
  · simpa [h1] using hlr
  · have hupd1 : ∀ dd, (∀ d t, updBest lr.1 dd x.id = some (d, t) → t ≠ s.id) := by
      intro dd d t hu
      rcases updBest_eq_some lr.1 dd x.id d t hu with he | he
      · exact he ▸ h1
      · exact hlr.1 d t he
    have hupd2 : ∀ dd, (∀ d t, updBest lr.2 dd x.id = some (d, t) → t ≠ s.id) := by
      intro dd d t hu
      rcases updBest_eq_some lr.2 dd x.id d t hu with he | he
      · exact he ▸ h1
      · exact hlr.2 d t he
    rw [if_neg h1]
    by_cases h2 : o = "top-down" <;> [rw [if_pos h2]; rw [if_neg h2]] <;>
      · split
        · exact hlr
        · split
          · exact ⟨hupd1 _, hlr.2⟩
          · exact ⟨hlr.1, hupd2 _⟩

theorem build_flowgraph_ok_nodes (g : GeometryOutput) (hints : Option YesNoHints)
    (fo : Option String) (fg : FlowGraph)
    (hb : build_flowgraph g hints fo = .ok fg) :
    fg.nodes = buildNodes (resolveOrientation g fo) hints g.shapes := by
  simp only [build_flowgraph] at hb
  rcases hfind : (countIncoming (buildNodes (resolveOrientation g fo) hints
      g.shapes)).find? (fun p => p.2 == 0) with _ | p
  · rw [hfind] at hb
    by_cases hemp : g.shapes.isEmpty
    · simp only [hemp, if_true] at hb
      cases hb
      rfl
    · simp only [hemp, if_false] at hb
      cases hb
  · rw [hfind] at hb
    cases hb
    rfl

theorem decisionStep_noSelf (o : String) (hints : Option YesNoHints)
    (shapes : List ShapePrimitive) (d : List (String × FlowNode))
    (s : ShapePrimitive) (hd : ∀ p ∈ d, noSelfPtr p) :
    ∀ p ∈ decisionStep o hints shapes d s, noSelfPtr p := by
  unfold decisionStep
  by_cases hsh : pyOrStr s.shape_type "" ≠ "decision"
  · simpa [hsh] using hd
  · rw [if_neg hsh]
    have hne := branchBests_ne o s shapes
    rcases hb : branchBests o s shapes with ⟨lb, rb⟩
    rw [hb] at hne
    simp only [hb]
    have hstepNo : ∀ (dd : List (String × FlowNode)) (tid : String), tid ≠ s.id →
        (∀ p ∈ dd, noSelfPtr p) →
        ∀ p ∈ dmod dd s.id (fun n => { n with out_no := some tid }), noSelfPtr p := by
      intro dd tid ht hdd
      refine dmod_forall hdd ?_
      intro v hv
      refine ⟨hv.1, hv.2.1, hv.2.2.1, ?_⟩
      intro he
      injection he with he
      exact ht he
    have hstepYes : ∀ (dd : List (String × FlowNode)) (tid : String), tid ≠ s.id →
        (∀ p ∈ dd, noSelfPtr p) →
        ∀ p ∈ dmod dd s.id (fun n => { n with out_yes := some tid }), noSelfPtr p := by
      intro dd tid ht hdd
      refine dmod_forall hdd ?_
      intro v hv
      refine ⟨hv.1, hv.2.1, ?_, hv.2.2.2⟩
      intro he
      injection he with he
      exact ht he
    have hstepSwap : ∀ (dd : List (String × FlowNode)),
        (∀ t, lb.map (·.2) = some t → t ≠ s.id) →
        (∀ t, rb.map (·.2) = some t → t ≠ s.id) →
        (∀ p ∈ dd, noSelfPtr p) →
        ∀ p ∈ dmod dd s.id (fun n =>
          { n with out_yes := lb.map (·.2), out_no := rb.map (·.2) }), noSelfPtr p := by
      intro dd hl hr hdd
      refine dmod_forall hdd ?_
      intro v hv
      refine ⟨hv.1, hv.2.1, ?_, ?_⟩
      · intro he
        exact hl s.id he rfl
      · intro he
        exact hr s.id he rfl
    have hlmap : ∀ t, lb.map (·.2) = some t → t ≠ s.id := by
      intro t he
      cases lb with
      | none => cases he
      | some q =>
        cases q with
        | mk qd qt =>
          simp at he
          exact he ▸ hne.1 qd qt rfl
    have hrmap : ∀ t, rb.map (·.2) = some t → t ≠ s.id := by
      intro t he
      cases rb with
      | none => cases he
      | some q =>
        cases q with
        | mk qd qt =>
          simp at he
          exact he ▸ hne.2 qd qt rfl
    have h1 : ∀ p ∈ (match lb with
        | some q => dmod d s.id (fun n => { n with out_no := some q.2 })
        | none => d), noSelfPtr p := by
      cases lb with
      | none => exact hd
      | some q =>
        cases q with
        | mk qd qt => exact hstepNo d qt (hne.1 qd qt rfl) hd
    have h2 : ∀ p ∈ (match rb with
        | some q => dmod (match lb with
            | some q => dmod d s.id (fun n => { n with out_no := some q.2 })
            | none => d) s.id (fun n => { n with out_yes := some q.2 })
        | none => (match lb with
            | some q => dmod d s.id (fun n => { n with out_no := some q.2 })
            | none => d)), noSelfPtr p := by
      cases rb with
      | none => exact h1
      | some q =>
        cases q with
        | mk qd qt => exact hstepYes _ qt (hne.2 qd qt rfl) h1
    cases lb <;> cases rb <;>
      · simp only at h2 ⊢
        repeat' split
        all_goals
          first
            | exact h2
            | exact hstepSwap _ hlmap hrmap h2

/-- The nodes dict `build_flowgraph` constructs never points a node at its
own key: initialization leaves all pointers `None`, and every later
assignment writes the id of a shape that the loops explicitly skip when it
equals the current shape (`if t.id == s.id: continue`). -/
theorem buildNodes_noSelf (o : String) (hints : Option YesNoHints)
    (shapes : List ShapePrimitive) :
    ∀ p ∈ buildNodes o hints shapes, noSelfPtr p := by
  unfold buildNodes
  dsimp only
  have h0 : ∀ p ∈ shapes.foldl (fun d s => dset d s.id (initNode s)) [], noSelfPtr p := by
    refine List.foldlRecOn
      (motive := fun d : List (String × FlowNode) => ∀ p ∈ d, noSelfPtr p)
      shapes _ [] (by intro p hp; cases hp) ?_
    intro d hd s _
    refine dset_forall hd ?_
    refine ⟨rfl, ?_, ?_, ?_⟩ <;> simp [initNode]
  have h1 : ∀ p ∈ shapes.foldl (fun d s =>
      match bestForward o s shapes with
      | some (_, tid) => dmod d s.id (fun n => { n with out := some tid })
      | none => d) (shapes.foldl (fun d s => dset d s.id (initNode s)) []), noSelfPtr p := by
    refine List.foldlRecOn
      (motive := fun d : List (String × FlowNode) => ∀ p ∈ d, noSelfPtr p)
      shapes _ _ h0 ?_
    intro d hd s _
    cases hbf : bestForward o s shapes with
    | none => exact hd
    | some q =>
      cases q with
      | mk qd qt =>
        refine dmod_forall hd ?_
        intro v hv
        refine ⟨hv.1, ?_, hv.2.2.1, hv.2.2.2⟩
        intro he
        injection he with he
        exact bestForward_ne o s shapes qd qt hbf he
  refine List.foldlRecOn
    (motive := fun d : List (String × FlowNode) => ∀ p ∈ d, noSelfPtr p)
    shapes _ _ h1 ?_
  intro d hd s _
  exact decisionStep_noSelf o hints shapes d s hd

/-- C10: no `FlowGraph` returned by `build_flowgraph` contains a node whose
`out`, `out_yes` or `out_no` pointer equals that node's own id — both
nearest-neighbor loops skip the shape itself, so the construction never
produces a self-loop, for any geometry, hint map or forced orientation. -/
theorem C10_no_self_pointer (g : GeometryOutput) (hints : Option YesNoHints)
    (fo : Option String) (fg : FlowGraph)
    (hb : build_flowgraph g hints fo = .ok fg) :
    ∀ p ∈ fg.nodes, p.2.out ≠ some p.2.id ∧ p.2.out_yes ≠ some p.2.id ∧
      p.2.out_no ≠ some p.2.id := by
  rw [build_flowgraph_ok_nodes g hints fo fg hb]
  intro p hp
  have h := buildNodes_noSelf (resolveOrientation g fo) hints g.shapes p hp
  refine ⟨?_, ?_, ?_⟩ <;> rw [h.1]
  · exact h.2.1
  · exact h.2.2.1
  · exact h.2.2.2

/-- Witness for C10 at a concrete input: the graph built from
`decisionBelowRight` under forced top-down orientation; its decision node
`s0` points at `s1` and `s2` and at neither its own id. -/
theorem C10_witness :
    FlowNode.out ⟨"s0", "decision", "", some "s1", some "s2", Option.none⟩ ≠
        some "s0" ∧
    FlowNode.out_yes ⟨"s0", "decision", "", some "s1", some "s2", Option.none⟩ ≠
        some "s0" ∧
    FlowNode.out_no ⟨"s0", "decision", "", some "s1", some "s2", Option.none⟩ ≠
        some "s0" := by
  have h := C10_no_self_pointer decisionBelowRight Option.none (some "top-down")
    ⟨[("s0", ⟨"s0", "decision", "", some "s1", some "s2", Option.none⟩),
      ("s1", ⟨"s1", "process", "", Option.none, Option.none, Option.none⟩),
      ("s2", ⟨"s2", "process", "", Option.none, Option.none, Option.none⟩)],
      some "s0", "top-down"⟩
    (by decide)
    ("s0", ⟨"s0", "decision", "", some "s1", some "s2", Option.none⟩)
    (by decide)
  exact h

theorem decisionStep_branchInv (o : String) (hints : Option YesNoHints)
    (shapes : List ShapePrimitive) (d : List (String × FlowNode))
    (s : ShapePrimitive) (hnd : (shapes.map (·.id)).Nodup) (hs : s ∈ shapes)
    (hd : ∀ p ∈ d, branchOnlyDecision shapes p) :
    ∀ p ∈ decisionStep o hints shapes d s, branchOnlyDecision shapes p := by
  unfold decisionStep
  by_cases hsh : pyOrStr s.shape_type "" ≠ "decision"
  · simpa [hsh] using hd
  · rw [if_neg hsh]
    have hdec : s.shape_type = "decision" := by
      rw [not_not] at hsh
      unfold pyOrStr at hsh
      by_cases he : s.shape_type = ""
      · rw [if_pos he] at hsh
        exact absurd hsh (by decide)
      · rwa [if_neg he] at hsh
    rcases hb : branchBests o s shapes with ⟨lb, rb⟩
    simp only [hb]
    have hstep : ∀ (dd : List (String × FlowNode)) (f : FlowNode → FlowNode),
        (∀ v, (f v).shape = v.shape) →
        (∀ p ∈ dd, branchOnlyDecision shapes p) →
        ∀ p ∈ dmod dd s.id f, branchOnlyDecision shapes p := by
      intro dd f hf hdd
      refine dmod_forall hdd ?_
      intro v hv
      obtain ⟨s', hs', hid, hsh'⟩ := hv.2
      have hss : s' = s := List.inj_on_of_nodup_map hnd hs' hs (by rw [hid])
      have hvdec : v.shape = "decision" := by
        rw [hsh', hss, hdec]
        rfl
      constructor
      · intro _
        rw [hf]
        exact hvdec
      · exact ⟨s', hs', hid, by rw [hf]; exact hsh'⟩
    have h1 : ∀ p ∈ (match lb with
        | some q => dmod d s.id (fun n => { n with out_no := some q.2 })
        | none => d), branchOnlyDecision shapes p := by
      cases lb with
      | none => exact hd
      | some q => exact hstep _ _ (fun v => rfl) hd
    have h2 : ∀ p ∈ (match rb with
        | some q => dmod (match lb with
            | some q => dmod d s.id (fun n => { n with out_no := some q.2 })
            | none => d) s.id (fun n => { n with out_yes := some q.2 })
        | none => (match lb with
            | some q => dmod d s.id (fun n => { n with out_no := some q.2 })
            | none => d)), branchOnlyDecision shapes p := by
      cases rb with
      | none => exact h1
      | some q => exact hstep _ _ (fun v => rfl) h1
    cases lb <;> cases rb <;>
      · simp only at h2 ⊢
        repeat' split
        all_goals
          first
            | exact h2
            | exact hstep _ _ (fun v => rfl) h2

theorem buildNodes_branchInv (o : String) (hints : Option YesNoHints)
    (shapes : List ShapePrimitive) (hnd : (shapes.map (·.id)).Nodup) :
    ∀ p ∈ buildNodes o hints shapes, branchOnlyDecision shapes p := by
  unfold buildNodes
  dsimp only
  have h0 : ∀ p ∈ shapes.foldl (fun d s => dset d s.id (initNode s)) [],
      branchOnlyDecision shapes p := by
    refine List.foldlRecOn
      (motive := fun d : List (String × FlowNode) =>
        ∀ p ∈ d, branchOnlyDecision shapes p)
      shapes _ [] (by intro p hp; cases hp) ?_
    intro d hd s hs
    refine dset_forall hd ?_
    constructor
    · intro hcond
      rcases hcond with hc | hc <;> exact absurd rfl hc
    · exact ⟨s, hs, rfl, rfl⟩
  have h1 : ∀ p ∈ shapes.foldl (fun d s =>
      match bestForward o s shapes with
      | some (_, tid) => dmod d s.id (fun n => { n with out := some tid })
      | none => d) (shapes.foldl (fun d s => dset d s.id (initNode s)) []),
      branchOnlyDecision shapes p := by
    refine List.foldlRecOn
      (motive := fun d : List (String × FlowNode) =>
        ∀ p ∈ d, branchOnlyDecision shapes p)
      shapes _ _ h0 ?_
    intro d hd s _
    cases hbf : bestForward o s shapes with
    | none => exact hd
    | some q =>
      cases q with
      | mk qd qt =>
        refine dmod_forall hd ?_
        intro v hv
        obtain ⟨s', hs', hid, hsh'⟩ := hv.2
        exact ⟨fun hcond => hv.1 hcond, s', hs', hid, hsh'⟩
  refine List.foldlRecOn
    (motive := fun d : List (String × FlowNode) =>
      ∀ p ∈ d, branchOnlyDecision shapes p)
    shapes _ _ h1 ?_
  intro d hd s hs
  exact decisionStep_branchInv o hints shapes d s hnd hs hd

/-- C3 (amended): in every `FlowGraph` that `build_flowgraph` returns for a
geometry with pairwise-distinct shape ids, only decision-typed nodes have
`out_yes` or `out_no` populated — but a decision node may *also* carry the
unconditional `out` pointer (the `out` loop runs for every shape and is
never cleared for decisions), so the exclusive either/or of the claim does
not hold. -/
theorem C3_branch_pointers (g : GeometryOutput) (hints : Option YesNoHints)
    (fo : Option String) (fg : FlowGraph)
    (hnd : (g.shapes.map (·.id)).Nodup)
    (hb : build_flowgraph g hints fo = .ok fg) :
    ∀ p ∈ fg.nodes,
      (p.2.out_yes ≠ Option.none ∨ p.2.out_no ≠ Option.none) →
        p.2.shape = "decision" := by
  rw [build_flowgraph_ok_nodes g hints fo fg hb]
  intro p hp
  exact (buildNodes_branchInv (resolveOrientation g fo) hints g.shapes hnd p hp).1

/-- Witness for C3 at a concrete input: the decision node of
`decisionBelowRight` has a populated `out_yes` and is indeed
decision-typed. -/
theorem C3_witness :
    FlowNode.shape ⟨"s0", "decision", "", some "s1", some "s2", Option.none⟩ =
      "decision" := by
  have h := C3_branch_pointers decisionBelowRight Option.none (some "top-down")
    ⟨[("s0", ⟨"s0", "decision", "", some "s1", some "s2", Option.none⟩),
      ("s1", ⟨"s1", "process", "", Option.none, Option.none, Option.none⟩),
      ("s2", ⟨"s2", "process", "", Option.none, Option.none, Option.none⟩)],
      some "s0", "top-down"⟩
    (by decide) (by decide)
    ("s0", ⟨"s0", "decision", "", some "s1", some "s2", Option.none⟩)
    (by decide)
  exact h (Or.inl (by decide))

/-- Counterexample for C3 as stated: in the graph built from
`decisionBelowRight` (forced top-down) the decision node `s0` carries both
the unconditional pointer (`out = "s1"`, its neighbor below) and a
conditional branch (`out_yes = "s2"`, its neighbor to the right), so a
decision node with a populated `out_yes` does *not* have `out = None`. -/
theorem C3_counterexample :
    (build_flowgraph decisionBelowRight Option.none (some "top-down")).toOption.map
        (fun f => dget f.nodes "s0") =
      some (some ⟨"s0", "decision", "", some "s1", some "s2", Option.none⟩) := by
  decide

theorem inter_comm (a b : RectC) : inter a b = inter b a := by
  unfold inter
  rw [min_comm a.x2, max_comm a.x1, min_comm a.y2, max_comm a.y1]

theorem iou_comm (a b : RectC) : iou a b = iou b a := by
  unfold iou
  rw [inter_comm]
  ring_nf

theorem inter_nonneg (a b : RectC) : 0 ≤ inter a b :=
  mul_nonneg (le_max_left 0 _) (le_max_left 0 _)

theorem inter_le_areaNN (a b : RectC) : inter a b ≤ areaNN a := by
  unfold inter areaNN rarea
  have hx : max 0 (min a.x2 b.x2 - max a.x1 b.x1) ≤ max 0 (a.x2 - a.x1) := by
    apply max_le (le_max_left 0 _)
    apply le_max_of_le_right
    have h1 : min a.x2 b.x2 ≤ a.x2 := min_le_left _ _
    have h2 : a.x1 ≤ max a.x1 b.x1 := le_max_left _ _
    omega
  have hy : max 0 (min a.y2 b.y2 - max a.y1 b.y1) ≤ max 0 (a.y2 - a.y1) := by
    apply max_le (le_max_left 0 _)
    apply le_max_of_le_right
    have h1 : min a.y2 b.y2 ≤ a.y2 := min_le_left _ _
    have h2 : a.y1 ≤ max a.y1 b.y1 := le_max_left _ _
    omega
  have hmul : max 0 (min a.x2 b.x2 - max a.x1 b.x1) *
      max 0 (min a.y2 b.y2 - max a.y1 b.y1) ≤
      max 0 (a.x2 - a.x1) * max 0 (a.y2 - a.y1) :=
    mul_le_mul hx hy (le_max_left 0 _) (le_max_left 0 _)
  refine le_trans hmul ?_
  rcases le_or_lt 0 (a.x2 - a.x1) with hw | hw
  · rcases le_or_lt 0 (a.y2 - a.y1) with hh | hh
    · rw [max_eq_right hw, max_eq_right hh]
      exact le_max_right 0 _
    · rw [max_eq_left (le_of_lt hh), mul_zero]
      exact le_max_left 0 _
  · rw [max_eq_left (le_of_lt hw), zero_mul]
    exact le_max_left 0 _

theorem areaNN_nonneg (r : RectC) : 0 ≤ areaNN r := le_max_left 0 _

theorem iouLt6_iff (a b : RectC) : iouLt6 a b = true ↔ iou a b < 3 / 5 := by
  unfold iouLt6 iou
  rw [decide_eq_true_iff]
  have hI : (0 : Int) ≤ inter a b := inter_nonneg a b
  have hS : inter a b ≤ areaNN a := inter_le_areaNN a b
  have hB : (0 : Int) ≤ areaNN b := areaNN_nonneg b
  have hD : (0 : ℚ) < (areaNN a : ℚ) + (areaNN b : ℚ) - (inter a b : ℚ) + 1 / 1000000 := by
    have h1 : (inter a b : ℚ) ≤ (areaNN a : ℚ) := by exact_mod_cast hS
    have h2 : (0 : ℚ) ≤ (areaNN b : ℚ) := by exact_mod_cast hB
    linarith
  rw [div_lt_div_iff₀ hD (by norm_num : (0 : ℚ) < 5)]
  constructor
  · intro h
    have h5 : inter a b * 5 ≤ 3 * (areaNN a + areaNN b - inter a b) := by omega
    have hq : (inter a b : ℚ) * 5 ≤ 3 * ((areaNN a : ℚ) + areaNN b - inter a b) := by
      exact_mod_cast h5
    linarith
  · intro h
    have hq : (inter a b : ℚ) * 5 <
        3 * ((areaNN a : ℚ) + areaNN b - inter a b) + 3 / 1000000 := by
      linarith
    have hq2 : (inter a b : ℚ) * 5 < 3 * ((areaNN a : ℚ) + areaNN b - inter a b) + 1 := by
      linarith
    have hint : inter a b * 5 < 3 * (areaNN a + areaNN b - inter a b) + 1 := by
      exact_mod_cast hq2
    omega

theorem nmsPick_pairwise (l : List RectC) :
    ∀ acc : List RectC,
      acc.Pairwise (fun a b => iou a b < 3 / 5 ∧ iou b a < 3 / 5) →
      (nmsPick acc l).Pairwise (fun a b => iou a b < 3 / 5 ∧ iou b a < 3 / 5) := by
  induction l with
  | nil =>
    intro acc hacc
    exact hacc
  | cons r rest ih =>
    intro acc hacc
    unfold nmsPick
    by_cases hall : acc.all (fun p => iouLt6 r p)
    · rw [if_pos hall]
      apply ih
      rw [List.pairwise_append]
      refine ⟨hacc, List.pairwise_singleton _ _, ?_⟩
      intro a ha c hc
      rw [List.mem_singleton] at hc
      subst hc
      have hra : iou c a < 3 / 5 :=
        (iouLt6_iff c a).1 (by simpa using List.all_eq_true.1 hall a ha)
      exact ⟨by rwa [iou_comm], hra⟩
    · rw [if_neg hall]
      exact ih acc hacc

theorem nestedStage_sublist (p : List RectC) : (nestedStage p).Sublist p := by
  unfold nestedStage
  have h1 := List.filter_sublist (p := fun q => nestedKeep p.enum q.1 q.2) p.enum
  have h2 := List.Sublist.map Prod.snd h1
  rwa [List.enum_map_snd] at h2

/-- C7: after the greedy NMS pick (over candidates sorted descending by
confidence then area) and the subsequent nested-shape suppression, *every*
pair of distinct surviving candidates has IoU strictly below the fixed NMS
threshold 0.6 — no pair needs the nested-suppression exemption, because the
nested pass only removes candidates and cannot raise any pairwise IoU.
`iou` is the exact rational the source computes
(`inter / (area_a + area_b - inter + 1e-6)`). -/
theorem C7_surviving_pairs_iou_below_threshold (rects : List RectC) :
    (nmsNested rects).Pairwise
      (fun a b => iou a b < 3 / 5 ∧ iou b a < 3 / 5) := by
  unfold nmsNested
  exact List.Pairwise.sublist (nestedStage_sublist _)
    (nmsPick_pairwise (sortRects rects) [] (List.Pairwise.nil))

theorem minDim_pos (m : Int) (h : 40 ≤ m) : 0 < minDim m := by
  unfold minDim
  rw [Int.fdiv_eq_ediv _ (by norm_num)]
  omega

theorem contourRects_nondegen (mw mh W H : Int) (hmw : 40 ≤ mw) (hmh : 40 ≤ mh)
    (cs : List Contour) :
    ∀ r ∈ cs.foldl (contourStep mw mh W H) [], r.x1 < r.x2 ∧ r.y1 < r.y2 := by
  refine List.foldlRecOn
    (motive := fun rects : List RectC => ∀ r ∈ rects, r.x1 < r.x2 ∧ r.y1 < r.y2)
    cs _ [] (by intro r hr; cases hr) ?_
  intro rects hrects c _
  unfold contourStep
  split
  · exact hrects
  · split
    · exact hrects
    · split
      · exact hrects
      · dsimp only
        split
        · intro r hr
          rcases List.mem_append.1 hr with hr | hr
          · exact hrects r hr
          · rw [List.mem_singleton] at hr
            subst hr
            have hw : ¬(c.w < minDim mw ∨ c.h < minDim mh) := by assumption
            push_neg at hw
            have h1 := minDim_pos mw hmw
            have h2 := minDim_pos mh hmh
            constructor <;> simp <;> omega
        · exact hrects

theorem mergeOne_bbox (m r : RectC) :
    (mergeOne m r).x1 = min m.x1 r.x1 ∧ (mergeOne m r).y1 = min m.y1 r.y1 ∧
    (mergeOne m r).x2 = max m.x2 r.x2 ∧ (mergeOne m r).y2 = max m.y2 r.y2 := by
  unfold mergeOne
  split <;> exact ⟨rfl, rfl, rfl, rfl⟩

theorem mergeStep_nondegen (r : RectC) (hr : r.x1 < r.x2 ∧ r.y1 < r.y2) :
    ∀ merged : List RectC, (∀ q ∈ merged, q.x1 < q.x2 ∧ q.y1 < q.y2) →
    ∀ q ∈ mergeStep merged r, q.x1 < q.x2 ∧ q.y1 < q.y2 := by
  intro merged
  induction merged with
  | nil =>
    intro _ q hq
    rw [show mergeStep [] r = [r] from rfl, List.mem_singleton] at hq
    exact hq ▸ hr
  | cons m ms ih =>
    intro hm q hq
    unfold mergeStep at hq
    by_cases hc : is_close r m
    · rw [if_pos hc, List.mem_cons] at hq
      rcases hq with hq | hq
      · subst hq
        obtain ⟨h1, h2, h3, h4⟩ := mergeOne_bbox m r
        have hmn := hm m (List.mem_cons_self m ms)
        rw [h1, h2, h3, h4]
        constructor
        · have := min_le_left m.x1 r.x1
          have := le_max_left m.x2 r.x2
          omega
        · have := min_le_left m.y1 r.y1
          have := le_max_left m.y2 r.y2
          omega
      · exact hm q (List.mem_cons_of_mem m hq)
    · rw [if_neg hc, List.mem_cons] at hq
      rcases hq with hq | hq
      · exact hq ▸ hm m (List.mem_cons_self m ms)
      · exact ih (fun x hx => hm x (List.mem_cons_of_mem m hx)) q hq

theorem mergeAll_nondegen (rects : List RectC)
    (h : ∀ r ∈ rects, r.x1 < r.x2 ∧ r.y1 < r.y2) :
    ∀ q ∈ mergeAll rects, q.x1 < q.x2 ∧ q.y1 < q.y2 := by
  unfold mergeAll
  refine List.foldlRecOn
    (motive := fun merged : List RectC => ∀ q ∈ merged, q.x1 < q.x2 ∧ q.y1 < q.y2)
    rects _ [] (by intro q hq; cases hq) ?_
  intro merged hmerged r hrm
  exact mergeStep_nondegen r (h r hrm) merged hmerged

theorem nmsPick_mem : ∀ (l acc : List RectC) (x : RectC),
    x ∈ nmsPick acc l → x ∈ acc ∨ x ∈ l := by
  intro l
  induction l with
  | nil =>
    intro acc x hx
    exact Or.inl hx
  | cons r rest ih =>
    intro acc x hx
    unfold nmsPick at hx
    by_cases hall : acc.all (fun p => iouLt6 r p)
    · rw [if_pos hall] at hx
      rcases ih _ x hx with hx | hx
      · rcases List.mem_append.1 hx with hx | hx
        · exact Or.inl hx
        · rw [List.mem_singleton] at hx
          exact Or.inr (hx ▸ List.mem_cons_self r rest)
      · exact Or.inr (List.mem_cons_of_mem r hx)
    · rw [if_neg hall] at hx
      rcases ih _ x hx with hx | hx
      · exact Or.inl hx
      · exact Or.inr (List.mem_cons_of_mem r hx)

theorem nmsNested_mem (rects : List RectC) (x : RectC) (hx : x ∈ nmsNested rects) :
    x ∈ rects := by
  unfold nmsNested at hx
  have h1 : x ∈ nmsPick [] (sortRects rects) :=
    (nestedStage_sublist _).mem hx
  rcases nmsPick_mem _ _ _ h1 with h | h
  · cases h
  · exact ((List.perm_insertionSort confAreaGE rects).mem_iff).1 h

theorem materialize_bbox (picked : List RectC) (s : ShapePrimitive)
    (hs : s ∈ materialize picked) :
    ∃ r ∈ picked, s.bbox = ⟨r.x1, r.y1, r.x2, r.y2⟩ := by
  unfold materialize at hs
  rcases List.mem_filterMap.1 hs with ⟨q, hq, he⟩
  by_cases hal : allowedType q.2.ty
  · rw [if_pos hal] at he
    injection he with he
    refine ⟨q.2, ?_, by rw [← he]⟩
    have : q.2 ∈ picked.enum.map Prod.snd := List.mem_map_of_mem Prod.snd hq
    rwa [List.enum_map_snd] at this
  · rw [if_neg hal] at he
    cases he

theorem capStage_mem (params : Option Params) (shapes res : List ShapePrimitive)
    (h : capStage params shapes = .ok res) : ∀ s ∈ res, s ∈ shapes := by
  unfold capStage at h
  cases params with
  | none =>
    injection h with h
    exact h ▸ fun s hs => hs
  | some p =>
    dsimp only at h
    by_cases hie : p.isEmpty ∨ shapes.isEmpty
    · rw [if_pos hie] at h
      injection h with h
      exact h ▸ fun s hs => hs
    · rw [if_neg hie] at h
      cases hest : pyInt (pyOrVal (pyGet p "estimated_node_count" .none) (.int 0)) with
      | error e =>
        rw [hest] at h
        cases e
        rw [except_error_bind] at h
        cases h
      | ok est =>
        rw [hest, except_ok_bind] at h
        by_cases hcond : 0 < est ∧ 3 * est < (shapes.length : Int)
        · rw [if_pos hcond] at h
          injection h with h
          subst h
          intro s hs
          have := List.mem_of_mem_take hs
          exact ((List.perm_insertionSort sareaGE shapes).mem_iff).1 this
        · rw [if_neg hcond] at h
          injection h with h
          exact h ▸ fun s hs => hs

/-- C6 (amended): on the successful detection path every shape in the
output of `detect_geometry` has a non-degenerate bbox (`x1 < x2` and
`y1 < y2`): the contour loop enforces the calibrated minimum box size
(at least `int(0.6*40) = 24` pixels each way), the proximity merge only
unions boxes, and NMS, nested suppression and the count cap only select
among them.  (The degraded fallback shape, by contrast, can be degenerate:
see the counterexample.) -/
theorem C6_success_shapes_nondegenerate (inp : DetectInput) (params : Option Params)
    (W H : Int) (shapes : List ShapePrimitive) (conns : List ConnectorPrimitive)
    (hb : detectBody inp params = .ok (W, H, shapes, conns)) :
    ∀ s ∈ shapes, s.bbox.x1 < s.bbox.x2 ∧ s.bbox.y1 < s.bbox.y2 := by
  unfold detectBody at hb
  cases hcv : inp.cv with
  | none =>
    rw [hcv] at hb
    cases hb
  | some img =>
    rw [hcv] at hb
    dsimp only at hb
    cases hmw : medianHint params "median_shape_width" with
    | error e =>
      cases e
      rw [hmw, except_error_bind] at hb
      cases hb
    | ok mw0 =>
      rw [hmw, except_ok_bind] at hb
      cases hmh : medianHint params "median_shape_height" with
      | error e =>
        cases e
        rw [hmh, except_error_bind] at hb
        cases hb
      | ok mh0 =>
        rw [hmh, except_ok_bind] at hb
        cases hcap : capStage params (materialize (nmsNested (mergeAll
            (img.contours.foldl (contourStep (max mw0 40) (max mh0 40)
              (match inp.pil with
                | some wh => wh
                | Option.none => (img.iw, img.ih)).1
              (match inp.pil with
                | some wh => wh
                | Option.none => (img.iw, img.ih)).2) [])))) with
        | error e =>
          cases e
          rw [hcap, except_error_bind] at hb
          cases hb
        | ok res =>
          rw [hcap, except_ok_bind] at hb
          injection hb with hb
          injection hb with _ hb
          injection hb with _ hb
          injection hb with hb _
          subst hb
          intro s hs
          have hs1 := capStage_mem _ _ _ hcap s hs
          obtain ⟨r, hr, hbbox⟩ := materialize_bbox _ s hs1
          have hr2 := nmsNested_mem _ _ hr
          have hr3 := mergeAll_nondegen _
            (contourRects_nondegen (max mw0 40) (max mh0 40) _ _
              (le_max_right mw0 40) (le_max_right mh0 40) img.contours) r hr2
          rw [hbbox]
          exact hr3

/-- Witness for C6 at a concrete input: the single shape detected on the
one-square image has a non-degenerate bbox. -/
theorem C6_witness :
    (⟨10, 10, 110, 110⟩ : BBox).x1 < (⟨10, 10, 110, 110⟩ : BBox).x2 ∧
    (⟨10, 10, 110, 110⟩ : BBox).y1 < (⟨10, 10, 110, 110⟩ : BBox).y2 := by
  have h := C6_success_shapes_nondegenerate oneSquareInput Option.none 500 500
    [⟨"s0", ⟨10, 10, 110, 110⟩, "process", Option.none, 75⟩] [] (by decide)
  exact h ⟨"s0", ⟨10, 10, 110, 110⟩, "process", Option.none, 75⟩ (by decide)

/-- Counterexample for C6 as stated: when both image probes fail, the
degraded fallback shape of `detect_geometry` has bbox `(0, 0, 0, 0)`, which
violates `x1 < x2` and `y1 < y2`. -/
theorem C6_counterexample :
    (detect_geometry "img.png" ⟨Option.none, Option.none⟩ Option.none).shapes =
      [⟨"s0", ⟨0, 0, 0, 0⟩, "unknown", Option.none, 10⟩] ∧
    ((detect_geometry "img.png" ⟨Option.none, Option.none⟩ Option.none).shapes.all
      (fun s => decide (s.bbox.x1 < s.bbox.x2 ∧ s.bbox.y1 < s.bbox.y2))) = false := by
  constructor <;> decide

theorem classifyContour_typeConf (c : Contour) :
    (allowedType (classifyContour c).1 = true ∧ 60 ≤ (classifyContour c).2) ∨
    (allowedType (classifyContour c).1 = false ∧ (classifyContour c).2 = 50) := by
  unfold classifyContour
  by_cases h4 : c.approxLen = 4
  · rw [if_pos h4]
    dsimp only
    by_cases h20 : |if c.angle < -45 then c.angle + 90 else c.angle| ≤ 20
    · rw [if_pos h20]
      exact Or.inl ⟨by decide, by norm_num⟩
    · rw [if_neg h20]
      by_cases h70 : |if c.angle < -45 then c.angle + 90 else c.angle| ≤ 70
      · rw [if_pos h70]
        exact Or.inl ⟨by decide, by norm_num⟩
      · rw [if_neg h70]
        by_cases har : ar_in c.w c.h 5 45
        · rw [if_pos har]
          exact Or.inl ⟨by decide, by norm_num⟩
        · rw [if_neg (by simpa using har)]
          exact Or.inr ⟨by decide, rfl⟩
  · rw [if_neg h4]
    by_cases hcirc : c.circHigh ∧ 6 ≤ c.approxLen
    · rw [if_pos hcirc]
      exact Or.inl ⟨by decide, by norm_num⟩
    · rw [if_neg hcirc]
      exact Or.inr ⟨by decide, rfl⟩

theorem contourRects_typeConf (mw mh W H : Int) (cs : List Contour) :
    ∀ r ∈ cs.foldl (contourStep mw mh W H) [], typeConfOK r := by
  refine List.foldlRecOn
    (motive := fun rects : List RectC => ∀ r ∈ rects, typeConfOK r)
    cs _ [] (by intro r hr; cases hr) ?_
  intro rects hrects c _
  unfold contourStep
  split
  · exact hrects
  · split
    · exact hrects
    · split
      · exact hrects
      · dsimp only
        split
        · intro r hr
          rcases List.mem_append.1 hr with hr | hr
          · exact hrects r hr
          · rw [List.mem_singleton] at hr
            subst hr
            exact classifyContour_typeConf c
        · exact hrects

theorem mergeOne_typeConf (m r : RectC) (hm : typeConfOK m) (hr : typeConfOK r) :
    typeConfOK (mergeOne m r) := by
  unfold mergeOne
  split
  · exact hr
  · exact hm

theorem mergeStep_forall (P : RectC → Prop)
    (hone : ∀ m r, P m → P r → P (mergeOne m r)) (r : RectC) (hr : P r) :
    ∀ merged : List RectC, (∀ q ∈ merged, P q) →
    ∀ q ∈ mergeStep merged r, P q := by
  intro merged
  induction merged with
  | nil =>
    intro _ q hq
    rw [show mergeStep [] r = [r] from rfl, List.mem_singleton] at hq
    exact hq ▸ hr
  | cons m ms ih =>
    intro hm q hq
    unfold mergeStep at hq
    by_cases hc : is_close r m
    · rw [if_pos hc, List.mem_cons] at hq
      rcases hq with hq | hq
      · exact hq ▸ hone m r (hm m (List.mem_cons_self m ms)) hr
      · exact hm q (List.mem_cons_of_mem m hq)
    · rw [if_neg hc, List.mem_cons] at hq
      rcases hq with hq | hq
      · exact hq ▸ hm m (List.mem_cons_self m ms)
      · exact ih (fun x hx => hm x (List.mem_cons_of_mem m hx)) q hq

theorem mergeAll_typeConf (rects : List RectC) (h : ∀ r ∈ rects, typeConfOK r) :
    ∀ q ∈ mergeAll rects, typeConfOK q := by
  unfold mergeAll
  refine List.foldlRecOn
    (motive := fun merged : List RectC => ∀ q ∈ merged, typeConfOK q)
    rects _ [] (by intro q hq; cases hq) ?_
  intro merged hmerged r hrm
  exact mergeStep_forall typeConfOK mergeOne_typeConf r (h r hrm) merged hmerged

theorem nmsPick_append_sublist :
    ∀ (l acc : List RectC), ∃ t, nmsPick acc l = acc ++ t ∧ t.Sublist l := by
  intro l
  induction l with
  | nil =>
    intro acc
    exact ⟨[], by simp [nmsPick], List.nil_sublist []⟩
  | cons r rest ih =>
    intro acc
    unfold nmsPick
    by_cases hall : acc.all (fun p => iouLt6 r p)
    · rw [if_pos hall]
      obtain ⟨t, ht, hsub⟩ := ih (acc ++ [r])
      exact ⟨r :: t, by rw [ht]; simp, List.Sublist.cons₂ r hsub⟩
    · rw [if_neg hall]
      obtain ⟨t, ht, hsub⟩ := ih acc
      exact ⟨t, ht, hsub.trans (List.sublist_cons_self r rest)⟩

theorem nmsNested_pairwise_GE (rects : List RectC) :
    (nmsNested rects).Pairwise confAreaGE := by
  unfold nmsNested
  have hsorted : (sortRects rects).Pairwise confAreaGE := by
    have := List.sorted_insertionSort confAreaGE rects
    exact this
  obtain ⟨t, ht, hsub⟩ := nmsPick_append_sublist (sortRects rects) []
  have hpick : (nmsPick [] (sortRects rects)).Pairwise confAreaGE := by
    rw [ht]
    simpa using List.Pairwise.sublist hsub hsorted
  exact List.Pairwise.sublist (nestedStage_sublist _) hpick

theorem allowed_prefix (l : List RectC) (hP : l.Pairwise confAreaGE)
    (hT : ∀ r ∈ l, typeConfOK r) :
    ∃ good bad, l = good ++ bad ∧ (∀ r ∈ good, allowedType r.ty = true) ∧
      (∀ r ∈ bad, allowedType r.ty = false) := by
  induction l with
  | nil =>
    exact ⟨[], [], rfl, fun r hr => absurd hr (List.not_mem_nil r),
      fun r hr => absurd hr (List.not_mem_nil r)⟩
  | cons r rest ih =>
    rw [List.pairwise_cons] at hP
    by_cases hal : allowedType r.ty
    · obtain ⟨good, bad, heq, hg, hb⟩ :=
        ih hP.2 (fun q hq => hT q (List.mem_cons_of_mem r hq))
      refine ⟨r :: good, bad, by rw [heq]; rfl, ?_, hb⟩
      intro q hq
      rcases List.mem_cons.1 hq with hq | hq
      · exact hq ▸ hal
      · exact hg q hq
    · refine ⟨[], r :: rest, rfl, fun q hq => absurd hq (List.not_mem_nil q), ?_⟩
      have hr50 : r.conf = 50 := by
        rcases hT r (List.mem_cons_self r rest) with h | h
        · exact absurd h.1 (by simpa using hal)
        · exact h.2
      intro q hq
      rcases List.mem_cons.1 hq with hq | hq
      · subst hq
        simpa using hal
      · rcases hT q (List.mem_cons_of_mem r hq) with h | h
        · have hge := hP.1 q hq
          unfold confAreaGE at hge
          have : q.conf ≤ r.conf := by
            rcases hge with hge | hge
            · omega
            · omega
          omega
        · exact h.1

theorem filterMap_eq_map_of_some {α β : Type} (f : α → Option β) (g : α → β)
    (l : List α) (h : ∀ a ∈ l, f a = some (g a)) :
    l.filterMap f = l.map g := by
  induction l with
  | nil => rfl
  | cons a rest ih =>
    rw [List.filterMap_cons, h a (List.mem_cons_self a rest), List.map_cons,
      ih (fun x hx => h x (List.mem_cons_of_mem a hx))]

theorem materialize_ids (good bad : List RectC)
    (hg : ∀ r ∈ good, allowedType r.ty = true)
    (hb : ∀ r ∈ bad, allowedType r.ty = false) :
    (materialize (good ++ bad)).map (fun s => s.id) =
      (List.range good.length).map sIdOf := by
  unfold materialize
  rw [List.enum_append, List.filterMap_append]
  have h2 : ((List.enumFrom good.length bad).filterMap (fun q =>
      if allowedType q.2.ty then
        some (⟨sIdOf q.1, ⟨q.2.x1, q.2.y1, q.2.x2, q.2.y2⟩, q.2.ty,
          Option.none, q.2.conf⟩ : ShapePrimitive)
      else Option.none)) = [] := by
    rw [List.filterMap_eq_nil_iff]
    intro q hq
    have hq2 : q.2 ∈ bad := by
      have := List.mem_map_of_mem Prod.snd hq
      rwa [List.enumFrom_map_snd] at this
    rw [if_neg (by simp [hb q.2 hq2])]
  have h1 : (good.enum.filterMap (fun q =>
      if allowedType q.2.ty then
        some (⟨sIdOf q.1, ⟨q.2.x1, q.2.y1, q.2.x2, q.2.y2⟩, q.2.ty,
          Option.none, q.2.conf⟩ : ShapePrimitive)
      else Option.none)) = good.enum.map (fun q =>
        (⟨sIdOf q.1, ⟨q.2.x1, q.2.y1, q.2.x2, q.2.y2⟩, q.2.ty,
          Option.none, q.2.conf⟩ : ShapePrimitive)) := by
    apply filterMap_eq_map_of_some
    intro q hq
    have hq2 : q.2 ∈ good := by
      have := List.mem_map_of_mem Prod.snd hq
      rwa [List.enum_map_snd] at this
    rw [if_pos (hg q.2 hq2)]
  rw [h1, h2, List.append_nil, List.map_map]
  have : ((fun s : ShapePrimitive => s.id) ∘ (fun q : Nat × RectC =>
      (⟨sIdOf q.1, ⟨q.2.x1, q.2.y1, q.2.x2, q.2.y2⟩, q.2.ty,
        Option.none, q.2.conf⟩ : ShapePrimitive))) =
      (fun q : Nat × RectC => sIdOf q.1) := rfl
  rw [this, show (fun q : Nat × RectC => sIdOf q.1) =
    (sIdOf ∘ Prod.fst) from rfl, ← List.map_map, List.enum_map_fst]

/-- C8 (amended): *before* the estimated-node-count cap, the shape list
materialized from the post-NMS candidates always carries dense ids
`s0, s1, ..., s(n-1)` in order: every allowed-typed candidate has
confidence at least 0.60 while every other candidate has exactly 0.50, so
after the descending `(confidence, area)` sort the allowed candidates form
a prefix and the enumeration indices of the materialized shapes are exactly
`0..n-1`.  (When the cap truncates, ids are *not* reassigned: the survivors
keep their pre-cap ids in area-descending order — see the counterexample.) -/
theorem C8_ids_dense_before_cap (cs : List Contour) (mw mh W H : Int) :
    (materialize (nmsNested (mergeAll
        (cs.foldl (contourStep mw mh W H) [])))).map (fun s => s.id) =
      (List.range (materialize (nmsNested (mergeAll
        (cs.foldl (contourStep mw mh W H) [])))).length).map sIdOf := by
  have hT : ∀ r ∈ nmsNested (mergeAll (cs.foldl (contourStep mw mh W H) [])),
      typeConfOK r := by
    intro r hr
    exact mergeAll_typeConf _ (contourRects_typeConf mw mh W H cs) r
      (nmsNested_mem _ r hr)
  obtain ⟨good, bad, heq, hg, hb⟩ :=
    allowed_prefix _ (nmsNested_pairwise_GE _) hT
  rw [heq, materialize_ids good bad hg hb]
  have hlen : (materialize (good ++ bad)).length = good.length := by
    have := congrArg List.length (materialize_ids good bad hg hb)
    simpa using this
  rw [hlen]

/-- Counterexample for C8 as stated: on the four-square image with the
calibration hint `estimated_node_count = 1`, the cap keeps the three
largest-area shapes of the four detected ones with their *old* ids in
area-descending order: the final successful (non-fallback) output carries
ids `["s1", "s2", "s3"]`, not the dense `["s0", "s1", "s2"]`. -/
theorem C8_counterexample :
    (detect_geometry "img.png" fourSquaresInput
        (some [("estimated_node_count", PyVal.int 1)])).shapes.map
        (fun s => s.id) = ["s1", "s2", "s3"] ∧
    (detect_geometry "img.png" fourSquaresInput
        (some [("estimated_node_count", PyVal.int 1)])).metadata.detector =
      "opencv-calibrated" ∧
    ["s1", "s2", "s3"] ≠ (List.range 3).map sIdOf := by
  refine ⟨?_, ?_, ?_⟩ <;> decide

end Flowforge
